import Mathlib

/-!
# PacAI: maze navigation and ghost pursuit

A shallow embedding of `PacAI.cpp` (tile grid, actor kinematics, the
traversability oracle `IsTraversable`, the ghost decision loop and the ghost
commit/move step of the frame loop) together with theorems about it.

Modelling conventions.

* `float` values are exact rationals (`ℚ`): rounding, infinities and NaN are
  outside the model.  `int` values are unbounded integers (`Int`); the
  conversion `floor(..)` to `int` is `Int.floor`.
* The grid is the C array `int grid[31][28]`: a table indexed by `Fin 31` and
  `Fin 28`.  A subscript outside the array has no defined value in C++, so every
  lookup goes through `cellAt`, which answers `none` outside the array, and the
  functions that perform lookups return an `Option`: `none` means that the code
  read the grid at an index outside the array.
* Rendering, logging, window handling and key polling are not modelled; the
  polled key and the frame time are inputs of the frame step.
-/

namespace PacAI

/-! ## Constants -/

def MAZE_ORIGIN_X : ℚ := 50
def MAZE_ORIGIN_Y : ℚ := 50
def MAZE_SCALE : ℚ := 2
def PIXELS_PER_TILE : ℚ := 8
def NUM_TILES_HORIZONTAL : Int := 28
def NUM_TILES_VERTICAL : Int := 31
def STARTING_ROW : Int := 23
def STARTING_COLUMN : Int := 13

/-- The largest finite `float`, `std::numeric_limits<float>::max()`,
which is `(2 - 2^(-23)) * 2^127`. -/
def FLT_MAX : ℚ := 340282346638528859811704183484516925440

/-! ## Data model -/

inductive Orientation where
  | up
  | down
  | left
  | right
  | none
  deriving DecidableEq, Repr

inductive GhostState where
  | chase
  | scatter
  | frightened
  deriving DecidableEq, Repr

structure Vector2 where
  x : ℚ
  y : ℚ
  deriving DecidableEq, Repr

structure Actor where
  centroid : Vector2
  width : Int
  height : Int
  currentTileX : Int
  currentTileY : Int
  orientation : Orientation
  speed : ℚ
  deriving DecidableEq, Repr

structure Ghost extends Actor where
  nextTileX : Int
  nextTileY : Int
  nextNextTileX : Int
  nextNextTileY : Int
  pendingPosition : Vector2
  pendingDirection : Orientation
  targetTileX : Int
  targetTileY : Int
  deriving DecidableEq, Repr

/-- The occupancy table `int grid[NUM_TILES_VERTICAL][NUM_TILES_HORIZONTAL]`:
row first, then column; `1` is a floor cell, `0` a wall or void cell. -/
abbrev Grid := Fin 31 → Fin 28 → Int

/-- The subscript expression `grid[row][column]`: the stored value when both
indexes are inside the array, `none` when the subscript is outside it. -/
def cellAt (grid : Grid) (row column : Int) : Option Int :=
  if h : 0 ≤ row ∧ row < NUM_TILES_VERTICAL ∧ 0 ≤ column ∧ column < NUM_TILES_HORIZONTAL then
    some (grid ⟨row.toNat, by simp only [NUM_TILES_VERTICAL] at h; omega⟩
               ⟨column.toNat, by simp only [NUM_TILES_HORIZONTAL] at h; omega⟩)
  else
    Option.none

/-! ## Grid model and actor kinematics -/

def CalculatePositionBasedOnTile (row column : Int) (cellSize : ℚ) : Vector2 :=
  { x := MAZE_ORIGIN_X + ((column : ℚ) * cellSize) + (cellSize / 2)
    y := MAZE_ORIGIN_Y + ((row : ℚ) * cellSize) + (cellSize / 2) }

def SetCurrentTileForActor (actor : Actor) (cellSize : ℚ) : Actor :=
  { actor with
    currentTileX := ⌊(actor.centroid.x - MAZE_ORIGIN_X) / cellSize⌋
    currentTileY := ⌊(actor.centroid.y - MAZE_ORIGIN_Y) / cellSize⌋ }

def IsTraversable (actor : Actor) (direction : Orientation) (deltaTime cellSize : ℚ)
    (grid : Grid) : Option Bool :=
  match direction with
  | .left =>
    let theoreticalPositionX := actor.centroid.x - actor.speed * deltaTime
    let theoreticalPositionY := actor.centroid.y
    let targetTileX : Int := ⌊(theoreticalPositionX - MAZE_ORIGIN_X) / cellSize⌋
    let targetTileY : Int := actor.currentTileY
    if targetTileX > -1 ∧ targetTileX < NUM_TILES_HORIZONTAL then
      (cellAt grid targetTileY targetTileX).bind fun target =>
      if target = 1 then
        if actor.orientation = .left ∨ actor.orientation = .right ∨ actor.orientation = .none then
          (cellAt grid targetTileY (targetTileX - 1)).bind fun beyond =>
          if ¬ (beyond = 0 ∧ actor.centroid.x ≤
              MAZE_ORIGIN_X + (targetTileX : ℚ) * cellSize + (cellSize / 2)) then
            some true
          else some false
        else if theoreticalPositionY -
            (MAZE_ORIGIN_Y + (targetTileY : ℚ) * cellSize + (cellSize / 2)) < 1 then
          if targetTileX - 1 > 0 then
            (cellAt grid targetTileY (targetTileX - 1)).bind fun beyond =>
            if beyond = 1 then some true else some false
          else some false
        else some false
      else some false
    else some false
  | .right =>
    let theoreticalPositionX := actor.centroid.x + actor.speed * deltaTime
    let theoreticalPositionY := actor.centroid.y
    let targetTileX : Int := ⌊(theoreticalPositionX - MAZE_ORIGIN_X) / cellSize⌋
    let targetTileY : Int := actor.currentTileY
    if targetTileX > -1 ∧ targetTileX < NUM_TILES_HORIZONTAL then
      (cellAt grid targetTileY targetTileX).bind fun target =>
      if target = 1 then
        if actor.orientation = .left ∨ actor.orientation = .right ∨ actor.orientation = .none then
          (cellAt grid targetTileY (targetTileX + 1)).bind fun beyond =>
          if ¬ (beyond = 0 ∧ actor.centroid.x ≥
              MAZE_ORIGIN_X + (targetTileX : ℚ) * cellSize + (cellSize / 2)) then
            some true
          else some false
        else if theoreticalPositionY -
            (MAZE_ORIGIN_Y + (targetTileY : ℚ) * cellSize + (cellSize / 2)) < 1 then
          if targetTileX + 1 < NUM_TILES_HORIZONTAL then
            (cellAt grid targetTileY (targetTileX + 1)).bind fun beyond =>
            if beyond = 1 then some true else some false
          else some false
        else some false
      else some false
    else some false
  | .up =>
    let theoreticalPositionX := actor.centroid.x
    let theoreticalPositionY := actor.centroid.y - actor.speed * deltaTime
    let targetTileX : Int := actor.currentTileX
    let targetTileY : Int := ⌊(theoreticalPositionY - MAZE_ORIGIN_Y) / cellSize⌋
    if targetTileY > -1 ∧ targetTileY < NUM_TILES_VERTICAL then
      (cellAt grid targetTileY targetTileX).bind fun target =>
      if target = 1 then
        if actor.orientation = .up ∨ actor.orientation = .down ∨ actor.orientation = .none then
          (cellAt grid (targetTileY - 1) targetTileX).bind fun beyond =>
          if ¬ (beyond = 0 ∧ actor.centroid.y ≤
              MAZE_ORIGIN_Y + (targetTileY : ℚ) * cellSize + (cellSize / 2)) then
            some true
          else some false
        else if theoreticalPositionX -
            (MAZE_ORIGIN_X + (targetTileX : ℚ) * cellSize + (cellSize / 2)) < 1 then
          if targetTileY - 1 > 0 then
            (cellAt grid (targetTileY - 1) targetTileX).bind fun beyond =>
            if beyond = 1 then some true else some false
          else some false
        else some false
      else some false
    else some false
  | .down =>
    let theoreticalPositionX := actor.centroid.x
    let theoreticalPositionY := actor.centroid.y + actor.speed * deltaTime
    let targetTileX : Int := actor.currentTileX
    let targetTileY : Int := ⌊(theoreticalPositionY - MAZE_ORIGIN_Y) / cellSize⌋
    if targetTileY > -1 ∧ targetTileY < NUM_TILES_VERTICAL then
      (cellAt grid targetTileY targetTileX).bind fun target =>
      if target = 1 then
        if actor.orientation = .up ∨ actor.orientation = .down ∨ actor.orientation = .none then
          (cellAt grid (targetTileY + 1) targetTileX).bind fun beyond =>
          if ¬ (beyond = 0 ∧ actor.centroid.y ≥
              MAZE_ORIGIN_Y + (targetTileY : ℚ) * cellSize + (cellSize / 2)) then
            some true
          else some false
        else if theoreticalPositionX -
            (MAZE_ORIGIN_X + (targetTileX : ℚ) * cellSize + (cellSize / 2)) < 1 then
          if targetTileY + 1 < NUM_TILES_VERTICAL then
            (cellAt grid (targetTileY + 1) targetTileX).bind fun beyond =>
            if beyond = 1 then some true else some false
          else some false
        else some false
      else some false
    else some false
  | .none => some false

def MoveActor (actor : Actor) (orientation : Orientation) (deltaTime cellSize : ℚ) : Actor :=
  let moved : Actor :=
    if orientation = .left then
      { actor with centroid := { actor.centroid with x := actor.centroid.x - actor.speed * deltaTime } }
    else if orientation = .right then
      { actor with centroid := { actor.centroid with x := actor.centroid.x + actor.speed * deltaTime } }
    else if orientation = .up then
      { actor with centroid := { actor.centroid with y := actor.centroid.y - actor.speed * deltaTime } }
    else if orientation = .down then
      { actor with centroid := { actor.centroid with y := actor.centroid.y + actor.speed * deltaTime } }
    else actor
  SetCurrentTileForActor { moved with orientation := orientation } cellSize

def IsReversal (actorDirection newDirection : Orientation) : Bool :=
  if actorDirection = .left ∧ newDirection = .right then true
  else if actorDirection = .right ∧ newDirection = .left then true
  else if actorDirection = .up ∧ newDirection = .down then true
  else if actorDirection = .down ∧ newDirection = .up then true
  else false

/-! ## The maze and the initial state of `main` -/

/-- The rows of the grid literal of `main`. -/
def gridRows : List (List Int) := [
  [0,0,0,0,0,0,0,0,0,0,0,0,0,0,0,0,0,0,0,0,0,0,0,0,0,0,0,0],
  [0,1,1,1,1,1,1,1,1,1,1,1,1,0,0,1,1,1,1,1,1,1,1,1,1,1,1,0],
  [0,1,0,0,0,0,1,0,0,0,0,0,1,0,0,1,0,0,0,0,0,1,0,0,0,0,1,0],
  [0,1,0,0,0,0,1,0,0,0,0,0,1,0,0,1,0,0,0,0,0,1,0,0,0,0,1,0],
  [0,1,0,0,0,0,1,0,0,0,0,0,1,0,0,1,0,0,0,0,0,1,0,0,0,0,1,0],
  [0,1,1,1,1,1,1,1,1,1,1,1,1,1,1,1,1,1,1,1,1,1,1,1,1,1,1,0],
  [0,1,0,0,0,0,1,0,0,1,0,0,0,0,0,0,0,0,1,0,0,1,0,0,0,0,1,0],
  [0,1,0,0,0,0,1,0,0,1,0,0,0,0,0,0,0,0,1,0,0,1,0,0,0,0,1,0],
  [0,1,1,1,1,1,1,0,0,1,1,1,1,0,0,1,1,1,1,0,0,1,1,1,1,1,1,0],
  [0,0,0,0,0,0,1,0,0,0,0,0,1,0,0,1,0,0,0,0,0,1,0,0,0,0,0,0],
  [0,0,0,0,0,0,1,0,0,0,0,0,1,0,0,1,0,0,0,0,0,1,0,0,0,0,0,0],
  [0,0,0,0,0,0,1,0,0,1,1,1,1,1,1,1,1,1,1,0,0,1,0,0,0,0,0,0],
  [0,0,0,0,0,0,1,0,0,1,0,0,0,0,0,0,0,0,1,0,0,1,0,0,0,0,0,0],
  [0,0,0,0,0,0,1,0,0,1,0,0,0,0,0,0,0,0,1,0,0,1,0,0,0,0,0,0],
  [1,1,1,1,1,1,1,1,1,1,0,0,0,0,0,0,0,0,1,1,1,1,1,1,1,1,1,1],
  [0,0,0,0,0,0,1,0,0,1,0,0,0,0,0,0,0,0,1,0,0,1,0,0,0,0,0,0],
  [0,0,0,0,0,0,1,0,0,1,0,0,0,0,0,0,0,0,1,0,0,1,0,0,0,0,0,0],
  [0,0,0,0,0,0,1,0,0,1,1,1,1,1,1,1,1,1,1,0,0,1,0,0,0,0,0,0],
  [0,0,0,0,0,0,1,0,0,1,0,0,0,0,0,0,0,0,1,0,0,1,0,0,0,0,0,0],
  [0,0,0,0,0,0,1,0,0,1,0,0,0,0,0,0,0,0,1,0,0,1,0,0,0,0,0,0],
  [0,1,1,1,1,1,1,1,1,1,1,1,1,0,0,1,1,1,1,1,1,1,1,1,1,1,1,0],
  [0,1,0,0,0,0,1,0,0,0,0,0,1,0,0,1,0,0,0,0,0,1,0,0,0,0,1,0],
  [0,1,0,0,0,0,1,0,0,0,0,0,1,0,0,1,0,0,0,0,0,1,0,0,0,0,1,0],
  [0,1,1,1,0,0,1,1,1,1,1,1,1,1,1,1,1,1,1,1,1,1,0,0,1,1,1,0],
  [0,0,0,1,0,0,1,0,0,1,0,0,0,0,0,0,0,0,1,0,0,1,0,0,1,0,0,0],
  [0,0,0,1,0,0,1,0,0,1,0,0,0,0,0,0,0,0,1,0,0,1,0,0,1,0,0,0],
  [0,1,1,1,1,1,1,0,0,1,1,1,1,0,0,1,1,1,1,0,0,1,1,1,1,1,1,0],
  [0,1,0,0,0,0,0,0,0,0,0,0,1,0,0,1,0,0,0,0,0,0,0,0,0,0,1,0],
  [0,1,0,0,0,0,0,0,0,0,0,0,1,0,0,1,0,0,0,0,0,0,0,0,0,0,1,0],
  [0,1,1,1,1,1,1,1,1,1,1,1,1,1,1,1,1,1,1,1,1,1,1,1,1,1,1,0],
  [0,0,0,0,0,0,0,0,0,0,0,0,0,0,0,0,0,0,0,0,0,0,0,0,0,0,0,0]]

/-- The array `grid` of `main`, holding the rows of the literal. -/
def grid : Grid := fun row column => (gridRows.getD row.val []).getD column.val 0

/-- The value `cellSize = PIXELS_PER_TILE * MAZE_SCALE` of `main`. -/
def cellSize : ℚ := PIXELS_PER_TILE * MAZE_SCALE

/-- The player as `main` initialises it; `width` and `height` come from the
loaded texture. -/
def initialPlayer (width height : Int) : Actor :=
  { centroid := CalculatePositionBasedOnTile STARTING_ROW STARTING_COLUMN cellSize
    width := width
    height := height
    currentTileX := STARTING_COLUMN
    currentTileY := STARTING_ROW
    orientation := .left
    speed := 100 }

/-- The ghost `blinky` as `main` initialises it; `width` and `height` come from
the loaded texture, and `main` leaves the four fields `nextNextTileX`,
`nextNextTileY`, `targetTileX`, `targetTileY` without an initial value. -/
def initialBlinky (width height nextNextTileX nextNextTileY targetTileX targetTileY : Int) :
    Ghost :=
  { centroid := CalculatePositionBasedOnTile 11 13 cellSize
    width := width
    height := height
    currentTileX := 13
    currentTileY := 11
    nextTileX := 12
    nextTileY := 11
    nextNextTileX := nextNextTileX
    nextNextTileY := nextNextTileY
    pendingPosition := CalculatePositionBasedOnTile 11 12 cellSize
    orientation := .left
    pendingDirection := .none
    speed := 100
    targetTileX := targetTileX
    targetTileY := targetTileY }

/-! ## The ghost decision loop -/

/-- The array `directions` of `main`. -/
def directions : List Orientation := [.up, .left, .down, .right]

/-- One pass of the body of the loop `for (int i = 0; i < 4; i++)` of `main`,
for `directions[i] = direction`; the state is the local `minDistance` and the
ghost. -/
def decisionPass (grid : Grid) (state : ℚ × Ghost) (direction : Orientation) :
    Option (ℚ × Ghost) :=
  let minDistance := state.1
  let blinky := state.2
  if IsReversal blinky.orientation direction then some state
  else
    match direction with
    | .left =>
      (cellAt grid blinky.nextTileY (blinky.nextTileX - 1)).bind fun cell =>
      if cell = 1 then
        let dist : ℚ := ((|blinky.nextTileY - blinky.targetTileY|
          + |blinky.nextTileX - 1 - blinky.targetTileX| : Int) : ℚ)
        if dist < minDistance then
          some (dist, { blinky with
            pendingDirection := .left
            nextNextTileX := blinky.nextTileX - 1
            nextNextTileY := blinky.nextTileY })
        else some state
      else some state
    | .right =>
      (cellAt grid blinky.nextTileY (blinky.nextTileX + 1)).bind fun cell =>
      if cell = 1 then
        let dist : ℚ := ((|blinky.nextTileY - blinky.targetTileY|
          + |blinky.nextTileX + 1 - blinky.targetTileX| : Int) : ℚ)
        if dist < minDistance then
          some (dist, { blinky with
            pendingDirection := .right
            nextNextTileX := blinky.nextTileX + 1
            nextNextTileY := blinky.nextTileY })
        else some state
      else some state
    | .up =>
      (cellAt grid (blinky.nextTileY - 1) blinky.nextTileX).bind fun cell =>
      if cell = 1 then
        let dist : ℚ := ((|blinky.nextTileY - 1 - blinky.targetTileY|
          + |blinky.nextTileX - blinky.targetTileX| : Int) : ℚ)
        if dist < minDistance then
          some (dist, { blinky with
            pendingDirection := .up
            nextNextTileX := blinky.nextTileX
            nextNextTileY := blinky.nextTileY - 1 })
        else some state
      else some state
    | .down =>
      (cellAt grid (blinky.nextTileY + 1) blinky.nextTileX).bind fun cell =>
      if cell = 1 then
        let dist : ℚ := ((|blinky.nextTileY + 1 - blinky.targetTileY|
          + |blinky.nextTileX - blinky.targetTileX| : Int) : ℚ)
        if dist < minDistance then
          some (dist, { blinky with
            pendingDirection := .down
            nextNextTileX := blinky.nextTileX
            nextNextTileY := blinky.nextTileY + 1 })
        else some state
      else some state
    | .none => some state

/-- The four passes of the decision loop, in the order of `directions`,
starting from a given `minDistance`. -/
def decisionLoop (grid : Grid) (state : ℚ × Ghost) : List Orientation → Option (ℚ × Ghost)
  | [] => some state
  | direction :: rest => (decisionPass grid state direction).bind fun next =>
      decisionLoop grid next rest

/-- The block `if (blinky.pendingDirection == none) { ... }` of `main`: the
decision step of the ghost. -/
def ghostDecision (grid : Grid) (blinky : Ghost) : Option Ghost :=
  if blinky.pendingDirection = .none then
    (decisionLoop grid (FLT_MAX, blinky) directions).map Prod.snd
  else some blinky

/-! ## The frame -/

/-- The statement `MoveActor(blinky, orientation, deltaTime, cellSize)`: the
ghost with its `Actor` part moved. -/
def MoveGhost (blinky : Ghost) (orientation : Orientation) (deltaTime cellSize : ℚ) : Ghost :=
  { blinky with toActor := MoveActor blinky.toActor orientation deltaTime cellSize }

/-- The statement
`if (IsTraversable(blinky, blinky.orientation, ..)) MoveActor(blinky, blinky.orientation, ..)`
which `main` runs when the ghost does not commit. -/
def ghostContinue (grid : Grid) (deltaTime cellSize : ℚ) (blinky : Ghost) : Option Ghost :=
  (IsTraversable blinky.toActor blinky.orientation deltaTime cellSize grid).bind fun ok =>
  if ok then some (MoveGhost blinky blinky.orientation deltaTime cellSize) else some blinky

/-- The commit/move part of the ghost update of `main` (from the test of
`pendingPosition` on).  The two `abs` calls are `|..| < 1` on the difference. -/
def ghostMove (grid : Grid) (deltaTime cellSize : ℚ) (blinky : Ghost) : Option Ghost :=
  if |blinky.pendingPosition.x - blinky.centroid.x| < 1
      ∧ |blinky.pendingPosition.y - blinky.centroid.y| < 1 then
    (IsTraversable blinky.toActor blinky.pendingDirection deltaTime cellSize grid).bind fun ok =>
    if ok then
      let moved := MoveGhost blinky blinky.pendingDirection deltaTime cellSize
      some { moved with
        pendingDirection := .none
        nextTileX := moved.nextNextTileX
        nextTileY := moved.nextNextTileY
        pendingPosition :=
          CalculatePositionBasedOnTile moved.nextNextTileY moved.nextNextTileX cellSize }
    else ghostContinue grid deltaTime cellSize blinky
  else ghostContinue grid deltaTime cellSize blinky

/-- The ghost part of one frame: refresh the target tile from the player,
run the decision step, then the commit/move step. -/
def ghostStep (grid : Grid) (deltaTime cellSize : ℚ) (player : Actor) (blinky : Ghost) :
    Option Ghost :=
  (ghostDecision grid { blinky with
      targetTileX := player.currentTileX
      targetTileY := player.currentTileY }).bind fun decided =>
  ghostMove grid deltaTime cellSize decided

/-- The player update of `main`, for the polled direction `inp`. -/
def playerUpdate (grid : Grid) (inp : Orientation) (deltaTime cellSize : ℚ) (player : Actor) :
    Option Actor :=
  (IsTraversable player inp deltaTime cellSize grid).bind fun ok =>
  if ok then some (MoveActor player inp deltaTime cellSize)
  else
    (IsTraversable player player.orientation deltaTime cellSize grid).bind fun ok2 =>
    if ok2 then some (MoveActor player player.orientation deltaTime cellSize)
    else some { player with orientation := .none }

/-- The state that one pass of the main loop updates. -/
structure World where
  player : Actor
  blinky : Ghost

/-- One pass of the main loop of `main` for the polled direction `inp` and the
frame time `deltaTime`: player update, then ghost update.  When no key is down
`main` leaves `inp` without a value, so `inp` ranges over all orientations. -/
def frame (grid : Grid) (cellSize : ℚ) (inp : Orientation) (deltaTime : ℚ) (w : World) :
    Option World :=
  (playerUpdate grid inp deltaTime cellSize w.player).bind fun player =>
  (ghostStep grid deltaTime cellSize player w.blinky).bind fun blinky =>
  some { player := player, blinky := blinky }

/-- The worlds that the main loop can be in at the start of a pass: the initial
state of `main`, and every state that a frame with a non-negative frame time
produces from a reachable one without reading outside the grid. -/
inductive Reachable (grid : Grid) : World → Prop
  | start (pw ph bw bh nnx nny tx ty : Int) :
      Reachable grid { player := initialPlayer pw ph, blinky := initialBlinky bw bh nnx nny tx ty }
  | step {w w2 : World} (inp : Orientation) (deltaTime : ℚ) :
      Reachable grid w → 0 ≤ deltaTime → frame grid cellSize inp deltaTime w = some w2 →
      Reachable grid w2

/-! ## Vocabulary of the decision step

The decision loop is compared with the following description of what it is
meant to compute: among the qualifying directions, the one whose neighbour
tile is nearest to the target tile, the earliest in `directions` among equals. -/

/-- The tile `(row, column)` one step from the ghost's `nextTile` in a direction. -/
def neighbourTile (blinky : Ghost) : Orientation → Int × Int
  | .up => (blinky.nextTileY - 1, blinky.nextTileX)
  | .left => (blinky.nextTileY, blinky.nextTileX - 1)
  | .down => (blinky.nextTileY + 1, blinky.nextTileX)
  | .right => (blinky.nextTileY, blinky.nextTileX + 1)
  | .none => (blinky.nextTileY, blinky.nextTileX)

/-- Manhattan distance from the neighbour tile in a direction to the target tile. -/
def manhattan (blinky : Ghost) (direction : Orientation) : Int :=
  |(neighbourTile blinky direction).1 - blinky.targetTileY|
    + |(neighbourTile blinky direction).2 - blinky.targetTileX|

/-- A direction qualifies when it is one of the four movement directions, is
not the reversal of the ghost's heading, and leads from `nextTile` to a floor
cell of the grid. -/
def Qualifies (grid : Grid) (blinky : Ghost) (direction : Orientation) : Prop :=
  direction ≠ .none ∧ IsReversal blinky.orientation direction = false
    ∧ cellAt grid (neighbourTile blinky direction).1 (neighbourTile blinky direction).2 = some 1

/-- Position of a direction in the array `directions` (4 for `none`). -/
def directionRank (direction : Orientation) : Nat := directions.indexOf direction

/-- A ghost approaching tile (11,13) from the right, heading left, that has
not decided yet and steers toward tile (23,13). -/
def scenarioGhost : Ghost :=
  { centroid := CalculatePositionBasedOnTile 11 14 cellSize
    width := 0
    height := 0
    currentTileX := 14
    currentTileY := 11
    nextTileX := 13
    nextTileY := 11
    nextNextTileX := 0
    nextNextTileY := 0
    pendingPosition := CalculatePositionBasedOnTile 11 13 cellSize
    orientation := .left
    pendingDirection := .none
    speed := 100
    targetTileX := 13
    targetTileY := 23 }

/-- An actor at the centre of tile (14,0), the left end of the tunnel row,
heading left. -/
def tunnelActor : Actor :=
  { centroid := CalculatePositionBasedOnTile 14 0 cellSize
    width := 0
    height := 0
    currentTileX := 0
    currentTileY := 14
    orientation := .left
    speed := 100 }

/-- The ghost after the decision loop has picked a direction: the three
assignments in the body of `if (dist < minDistance)`. -/
def committed (blinky : Ghost) (direction : Orientation) : Ghost :=
  { blinky with
    pendingDirection := direction
    nextNextTileX := (neighbourTile blinky direction).2
    nextNextTileY := (neighbourTile blinky direction).1 }

/-- What the decision loop has established once the directions of rank below
`k` have been tried, starting from the ghost `b0`: either none of them
qualifies and nothing has changed, or the loop holds the nearest qualifying one
(the earliest among equals) together with its distance. -/
def DecisionInv (grid : Grid) (b0 : Ghost) (k : Nat) (state : ℚ × Ghost) : Prop :=
  (state = (FLT_MAX, b0) ∧ ∀ d, directionRank d < k → ¬ Qualifies grid b0 d)
  ∨ ∃ d, directionRank d < k ∧ Qualifies grid b0 d
      ∧ state = ((manhattan b0 d : ℚ), committed b0 d)
      ∧ ∀ e, directionRank e < k → Qualifies grid b0 e →
          manhattan b0 d ≤ manhattan b0 e
          ∧ (manhattan b0 e = manhattan b0 d → directionRank d ≤ directionRank e)

/-- The world after the first frame of the game when the left key is down
and the frame time is one sixtieth of a second: the player has moved left, the
ghost has decided `up` for the tile after (11,12) and has moved left. -/
def firstFrameWorld : World :=
  { player := MoveActor (initialPlayer 0 0) .left (1 / 60) cellSize
    blinky := MoveGhost (committed (initialBlinky 0 0 0 0 13 23) .up) .left (1 / 60) cellSize }

/-- An actor on row 1 of the maze at horizontal position `x`, in tile (1,1),
heading left; tile (1,0), one step further left, is a wall cell. -/
def wallApproachActor (x : ℚ) : Actor :=
  { centroid := { x := x, y := 74 }
    width := 0
    height := 0
    currentTileX := 1
    currentTileY := 1
    orientation := .left
    speed := 100 }

/-- A grid with a floor cell everywhere. -/
def openGrid : Grid := fun _ _ => 1

/-! ## Vocabulary of the traversability oracle -/

/-- The locals `(targetTileY, targetTileX)` of `IsTraversable`, as (row,
column): along the axis of travel the tile index of the hypothetical position,
on the other axis the actor's cached tile index.  For the direction `none` the
source computes no target tile; the actor's cached tile stands in. -/
def targetTile (actor : Actor) (direction : Orientation) (deltaTime cellSize : ℚ) : Int × Int :=
  match direction with
  | .left =>
    (actor.currentTileY,
      ⌊(actor.centroid.x - actor.speed * deltaTime - MAZE_ORIGIN_X) / cellSize⌋)
  | .right =>
    (actor.currentTileY,
      ⌊(actor.centroid.x + actor.speed * deltaTime - MAZE_ORIGIN_X) / cellSize⌋)
  | .up =>
    (⌊(actor.centroid.y - actor.speed * deltaTime - MAZE_ORIGIN_Y) / cellSize⌋,
      actor.currentTileX)
  | .down =>
    (⌊(actor.centroid.y + actor.speed * deltaTime - MAZE_ORIGIN_Y) / cellSize⌋,
      actor.currentTileX)
  | .none => (actor.currentTileY, actor.currentTileX)

/-- The tile (row, column) one step from a tile in a direction. -/
def tileToward (tile : Int × Int) : Orientation → Int × Int
  | .up => (tile.1 - 1, tile.2)
  | .left => (tile.1, tile.2 - 1)
  | .down => (tile.1 + 1, tile.2)
  | .right => (tile.1, tile.2 + 1)
  | .none => tile

/-- The heading test of the colinear branch of `IsTraversable`: the heading
is on the axis of the requested direction, or is `none`. -/
def IsColinear (heading direction : Orientation) : Prop :=
  match direction with
  | .left => heading = .left ∨ heading = .right ∨ heading = .none
  | .right => heading = .left ∨ heading = .right ∨ heading = .none
  | .up => heading = .up ∨ heading = .down ∨ heading = .none
  | .down => heading = .up ∨ heading = .down ∨ heading = .none
  | .none => False

/-- The position test of the colinear branch of `IsTraversable` as the
source writes it: the actor's centroid, where it is now, is at or past the
centre of the target tile in the direction of travel. -/
def centroidReachedCentre (actor : Actor) (direction : Orientation) (deltaTime cellSize : ℚ) :
    Prop :=
  match direction with
  | .left => actor.centroid.x ≤ MAZE_ORIGIN_X
      + ((targetTile actor .left deltaTime cellSize).2 : ℚ) * cellSize + cellSize / 2
  | .right => actor.centroid.x ≥ MAZE_ORIGIN_X
      + ((targetTile actor .right deltaTime cellSize).2 : ℚ) * cellSize + cellSize / 2
  | .up => actor.centroid.y ≤ MAZE_ORIGIN_Y
      + ((targetTile actor .up deltaTime cellSize).1 : ℚ) * cellSize + cellSize / 2
  | .down => actor.centroid.y ≥ MAZE_ORIGIN_Y
      + ((targetTile actor .down deltaTime cellSize).1 : ℚ) * cellSize + cellSize / 2
  | .none => False

/-- The position test of the colinear rule as the specification words it:
the hypothetical position (the centroid advanced by `speed * deltaTime` in the
direction) is at or past the centre of the target tile in the direction of
travel. -/
def hypotheticalReachedCentre (actor : Actor) (direction : Orientation)
    (deltaTime cellSize : ℚ) : Prop :=
  match direction with
  | .left => actor.centroid.x - actor.speed * deltaTime ≤ MAZE_ORIGIN_X
      + ((targetTile actor .left deltaTime cellSize).2 : ℚ) * cellSize + cellSize / 2
  | .right => actor.centroid.x + actor.speed * deltaTime ≥ MAZE_ORIGIN_X
      + ((targetTile actor .right deltaTime cellSize).2 : ℚ) * cellSize + cellSize / 2
  | .up => actor.centroid.y - actor.speed * deltaTime ≤ MAZE_ORIGIN_Y
      + ((targetTile actor .up deltaTime cellSize).1 : ℚ) * cellSize + cellSize / 2
  | .down => actor.centroid.y + actor.speed * deltaTime ≥ MAZE_ORIGIN_Y
      + ((targetTile actor .down deltaTime cellSize).1 : ℚ) * cellSize + cellSize / 2
  | .none => False

/-- An actor in tile (5,6) of the maze, heading down, 5 units above the
centre of its tile. -/
def turnActor : Actor :=
  { centroid := { x := 154, y := 133 }
    width := 0
    height := 0
    currentTileX := 6
    currentTileY := 5
    orientation := .down
    speed := 100 }

/-- An actor at the centre of tile (14,1) of the maze, heading down. -/
def tunnelTurnActor : Actor :=
  { centroid := CalculatePositionBasedOnTile 14 1 cellSize
    width := 0
    height := 0
    currentTileX := 1
    currentTileY := 14
    orientation := .down
    speed := 100 }

/-- A position displaced by a distance in a direction: left and right move
x, up and down move y, `none` moves nothing. -/
def displaced (position : Vector2) (direction : Orientation) (distance : ℚ) : Vector2 :=
  match direction with
  | .left => { position with x := position.x - distance }
  | .right => { position with x := position.x + distance }
  | .up => { position with y := position.y - distance }
  | .down => { position with y := position.y + distance }
  | .none => position

/-- The test of `main` that the ghost has reached `pendingPosition`: both
axis differences are below 1. -/
def reachedPending (blinky : Ghost) : Prop :=
  |blinky.pendingPosition.x - blinky.centroid.x| < 1
    ∧ |blinky.pendingPosition.y - blinky.centroid.y| < 1

/-- A ghost at the centre of tile (11,12) of the maze, heading left, that
has decided to go up to tile (10,12) and has reached its `pendingPosition`. -/
def commitGhost : Ghost :=
  { centroid := CalculatePositionBasedOnTile 11 12 cellSize
    width := 0
    height := 0
    currentTileX := 12
    currentTileY := 11
    nextTileX := 12
    nextTileY := 11
    nextNextTileX := 12
    nextNextTileY := 10
    pendingPosition := CalculatePositionBasedOnTile 11 12 cellSize
    orientation := .left
    pendingDirection := .up
    speed := 100
    targetTileX := 13
    targetTileY := 23 }

/-- A ghost at the centre of tile (14,1) of the maze, heading left toward
`nextTile` (14,0), the left end of the tunnel row, that has not decided yet. -/
def tunnelGhost : Ghost :=
  { centroid := CalculatePositionBasedOnTile 14 1 cellSize
    width := 0
    height := 0
    currentTileX := 1
    currentTileY := 14
    nextTileX := 0
    nextTileY := 14
    nextNextTileX := 0
    nextNextTileY := 14
    pendingPosition := CalculatePositionBasedOnTile 14 0 cellSize
    orientation := .left
    pendingDirection := .none
    speed := 100
    targetTileX := 0
    targetTileY := 14 }

/-- The tile (row, column) one step behind a tile against a heading: the
tile from which the tile is entered with that heading. -/
def tileBehind (tile : Int × Int) : Orientation → Int × Int
  | .up => (tile.1 + 1, tile.2)
  | .left => (tile.1, tile.2 + 1)
  | .down => (tile.1 - 1, tile.2)
  | .right => (tile.1, tile.2 - 1)
  | .none => tile

/-- Whether a tile is a floor cell of a grid. -/
def floorAt (g : Grid) (tile : Int × Int) : Bool :=
  cellAt g tile.1 tile.2 == some 1

/-- The two ends of the tunnel row of the maze, with the heading by which
each is entered: tile (14,0) heading left and tile (14,27) heading right. -/
def isTunnelEnd (tile : Int × Int) (heading : Orientation) : Bool :=
  (tile == (14, 0) && heading == .left) || (tile == (14, 27) && heading == .right)

/-- The check behind the statement that the maze has no dead end: if the
tile is a floor cell of the maze, can be entered with the heading, and is not
an end of the tunnel row, then its four neighbours are inside the grid and some
direction other than the reversal of the heading leads to a floor cell. -/
def exitCheck (row column : Nat) (heading : Orientation) : Bool :=
  if floorAt grid ((row : Int), (column : Int))
      && floorAt grid (tileBehind ((row : Int), (column : Int)) heading)
      && !isTunnelEnd ((row : Int), (column : Int)) heading then
    decide (1 ≤ row ∧ row + 1 < 31 ∧ 1 ≤ column ∧ column + 1 < 28)
      && directions.any fun d =>
        !IsReversal heading d && floorAt grid (tileToward ((row : Int), (column : Int)) d)
  else true

/-! ## Invariants of the frame -/

/-- The cached tile of an actor agrees with its centroid: each index is the
floor of (centroid - maze origin) / cellSize. -/
def tileConsistent (actor : Actor) (cellSize : ℚ) : Prop :=
  actor.currentTileX = ⌊(actor.centroid.x - MAZE_ORIGIN_X) / cellSize⌋
    ∧ actor.currentTileY = ⌊(actor.centroid.y - MAZE_ORIGIN_Y) / cellSize⌋

/-- The cached tile of an actor agrees with its centroid and is a floor cell
of the grid. -/
def onFloor (grid : Grid) (actor : Actor) (cellSize : ℚ) : Prop :=
  tileConsistent actor cellSize
    ∧ cellAt grid actor.currentTileY actor.currentTileX = some 1

/-- The lookahead state of a ghost is in order: `nextTile` is a floor cell of
the grid, `pendingPosition` is the tile centre of `nextTile`, and when
`pendingDirection` is not `none` the tile `nextNextTile` is the neighbour of
`nextTile` one step in `pendingDirection` and is a floor cell of the grid. -/
def lookaheadInv (grid : Grid) (cellSize : ℚ) (blinky : Ghost) : Prop :=
  cellAt grid blinky.nextTileY blinky.nextTileX = some 1
    ∧ blinky.pendingPosition
        = CalculatePositionBasedOnTile blinky.nextTileY blinky.nextTileX cellSize
    ∧ (blinky.pendingDirection ≠ .none →
        (blinky.nextNextTileY, blinky.nextNextTileX)
            = neighbourTile blinky blinky.pendingDirection
          ∧ cellAt grid blinky.nextNextTileY blinky.nextNextTileX = some 1)

/-! ## A game that leads the ghost to the end of the tunnel row -/

/-- Successive passes of the main loop: the frames of a list of polled
directions and frame times, run one after the other; `none` as soon as a frame
reads outside the grid. -/
def runFrames (grid : Grid) (cellSize : ℚ) : List (Orientation × ℚ) → World → Option World
  | [], w => some w
  | (inp, deltaTime) :: rest, w =>
    (frame grid cellSize inp deltaTime w).bind fun w2 => runFrames grid cellSize rest w2

/-- The worlds after each frame of a list of polled directions and frame
times, up to the first frame that reads outside the grid. -/
def frameTrace (grid : Grid) (cellSize : ℚ) : List (Orientation × ℚ) → World → List World
  | [], _ => []
  | (inp, deltaTime) :: rest, w =>
    match frame grid cellSize inp deltaTime w with
    | some w2 => w2 :: frameTrace grid cellSize rest w2
    | Option.none => []

/-- The keys and frame times of a game of 28 frames.  In a frame of 0.16
seconds an actor of speed 100 covers one tile of 16 pixels.  The left key is
down for 19 frames (the player walks along row 23 from column 13 to column 6
and waits there at the wall), then the up key for 3 frames (the player climbs
column 6 to row 20), then the left key for 5 frames (the player walks along
row 20 to column 1), and for a last frame of one sixtieth of a second. -/
def tunnelApproach : List (Orientation × ℚ) :=
  List.replicate 19 (.left, 4 / 25) ++ List.replicate 3 (.up, 4 / 25)
    ++ List.replicate 5 (.left, 4 / 25) ++ [(.left, 1 / 60)]

/-- The world at the end of the game `tunnelApproach`: the player stands at
the centre of tile (20,1); the ghost has come down column 6, has turned left
into the tunnel row 14, and in the last frame has committed the step from tile
(14,1) to tile (14,0), the left end of the row: `nextTile` is (14,0), the
heading is left and `pendingDirection` is `none`. -/
def tunnelEndWorld : World :=
  { player :=
      { centroid := { x := 74, y := 378 }
        width := 0
        height := 0
        currentTileX := 1
        currentTileY := 20
        orientation := .none
        speed := 100 }
    blinky :=
      { centroid := { x := 217 / 3, y := 282 }
        width := 0
        height := 0
        currentTileX := 1
        currentTileY := 14
        nextTileX := 0
        nextTileY := 14
        nextNextTileX := 0
        nextNextTileY := 14
        pendingPosition := { x := 58, y := 282 }
        orientation := .left
        pendingDirection := .none
        speed := 100
        targetTileX := 1
        targetTileY := 20 } }

/-- The check behind the statement that the only dead ends of the maze are
the two ends of the tunnel row: if the tile is a floor cell of the maze and no
direction other than the reversal of the heading leads from it to a floor cell
of the grid, then the tile and the heading are an end of the tunnel row. -/
def deadEndCheck (row column : Nat) (heading : Orientation) : Bool :=
  if floorAt grid ((row : Int), (column : Int))
      && directions.all fun d =>
        IsReversal heading d || !floorAt grid (tileToward ((row : Int), (column : Int)) d) then
    isTunnelEnd ((row : Int), (column : Int)) heading
  else true

/-! ## Theorems -/

/-! ### The traversability oracle and the kinematics -/

/-- C1: for every actor, frame time and positive cell size, `IsTraversable`
answers `false` when the tile index of the hypothetical position along the axis
of travel is negative or at least the grid dimension on that axis (28 columns
for left and right, 31 rows for up and down); it answers `false` for the
direction `none`; and in particular it answers `false` when the hypothetical
position lies left of or above the maze origin. -/
theorem IsTraversable_out_of_bounds (g : Grid) (actor : Actor) (deltaTime cellSize : ℚ)
    (hcs : 0 < cellSize) :
    (∀ t : Int, t = ⌊(actor.centroid.x - actor.speed * deltaTime - MAZE_ORIGIN_X) / cellSize⌋ →
        t < 0 ∨ NUM_TILES_HORIZONTAL ≤ t →
        IsTraversable actor .left deltaTime cellSize g = some false)
    ∧ (∀ t : Int, t = ⌊(actor.centroid.x + actor.speed * deltaTime - MAZE_ORIGIN_X) / cellSize⌋ →
        t < 0 ∨ NUM_TILES_HORIZONTAL ≤ t →
        IsTraversable actor .right deltaTime cellSize g = some false)
    ∧ (∀ t : Int, t = ⌊(actor.centroid.y - actor.speed * deltaTime - MAZE_ORIGIN_Y) / cellSize⌋ →
        t < 0 ∨ NUM_TILES_VERTICAL ≤ t →
        IsTraversable actor .up deltaTime cellSize g = some false)
    ∧ (∀ t : Int, t = ⌊(actor.centroid.y + actor.speed * deltaTime - MAZE_ORIGIN_Y) / cellSize⌋ →
        t < 0 ∨ NUM_TILES_VERTICAL ≤ t →
        IsTraversable actor .down deltaTime cellSize g = some false)
    ∧ IsTraversable actor .none deltaTime cellSize g = some false
    ∧ (actor.centroid.x - actor.speed * deltaTime < MAZE_ORIGIN_X →
        IsTraversable actor .left deltaTime cellSize g = some false)
    ∧ (actor.centroid.x + actor.speed * deltaTime < MAZE_ORIGIN_X →
        IsTraversable actor .right deltaTime cellSize g = some false)
    ∧ (actor.centroid.y - actor.speed * deltaTime < MAZE_ORIGIN_Y →
        IsTraversable actor .up deltaTime cellSize g = some false)
    ∧ (actor.centroid.y + actor.speed * deltaTime < MAZE_ORIGIN_Y →
        IsTraversable actor .down deltaTime cellSize g = some false) := by
  have key : ∀ p o : ℚ, p < o → ¬ ((⌊(p - o) / cellSize⌋ : Int) > -1) := by
    intro p o h
    have h1 : (p - o) / cellSize < 0 := div_neg_of_neg_of_pos (by linarith) hcs
    have h2 : (⌊(p - o) / cellSize⌋ : Int) < 0 := Int.floor_lt.mpr (by simpa using h1)
    omega
  refine ⟨?_, ?_, ?_, ?_, rfl, ?_, ?_, ?_, ?_⟩
  · intro t ht hb
    have : ¬ (t > -1 ∧ t < NUM_TILES_HORIZONTAL) := by omega
    subst ht
    simp only [IsTraversable, if_neg this]
  · intro t ht hb
    have : ¬ (t > -1 ∧ t < NUM_TILES_HORIZONTAL) := by omega
    subst ht
    simp only [IsTraversable, if_neg this]
  · intro t ht hb
    have : ¬ (t > -1 ∧ t < NUM_TILES_VERTICAL) := by omega
    subst ht
    simp only [IsTraversable, if_neg this]
  · intro t ht hb
    have : ¬ (t > -1 ∧ t < NUM_TILES_VERTICAL) := by omega
    subst ht
    simp only [IsTraversable, if_neg this]
  · intro h
    have := key _ _ h
    simp only [IsTraversable]
    rw [if_neg (fun hh => this hh.1)]
  · intro h
    have := key _ _ h
    simp only [IsTraversable]
    rw [if_neg (fun hh => this hh.1)]
  · intro h
    have := key _ _ h
    simp only [IsTraversable]
    rw [if_neg (fun hh => this hh.1)]
  · intro h
    have := key _ _ h
    simp only [IsTraversable]
    rw [if_neg (fun hh => this hh.1)]

/-- Witness for C1: the player of the initial state, asked to move left for
three seconds, would land six tiles left of the grid, and the oracle answers
`false`. -/
theorem IsTraversable_out_of_bounds_witness :
    (0 : ℚ) < 16
    ∧ (⌊((initialPlayer 0 0).centroid.x - (initialPlayer 0 0).speed * 3 - MAZE_ORIGIN_X) / 16⌋ : Int)
        = -6
    ∧ IsTraversable (initialPlayer 0 0) .left 3 16 grid = some false :=
  have hfloor : (⌊((initialPlayer 0 0).centroid.x - (initialPlayer 0 0).speed * 3
      - MAZE_ORIGIN_X) / 16⌋ : Int) = -6 := by
    norm_num [initialPlayer, CalculatePositionBasedOnTile, MAZE_ORIGIN_X, STARTING_COLUMN,
      cellSize, PIXELS_PER_TILE, MAZE_SCALE]
  ⟨by norm_num, hfloor,
    (IsTraversable_out_of_bounds grid (initialPlayer 0 0) 3 16 (by norm_num)).1 (-6)
      hfloor.symm (Or.inl (by decide))⟩

/-- C3: for every actor, every direction (`none` included), every frame time
and every positive cell size, after `MoveActor` the cached tile indices are the
floors of (centroid - 50) / cellSize of the new centroid, on each axis. -/
theorem MoveActor_tile_consistent (actor : Actor) (orientation : Orientation)
    (deltaTime cellSize : ℚ) (_hcs : 0 < cellSize) :
    (MoveActor actor orientation deltaTime cellSize).currentTileX
        = ⌊((MoveActor actor orientation deltaTime cellSize).centroid.x - 50) / cellSize⌋
    ∧ (MoveActor actor orientation deltaTime cellSize).currentTileY
        = ⌊((MoveActor actor orientation deltaTime cellSize).centroid.y - 50) / cellSize⌋ := by
  simp [MoveActor, SetCurrentTileForActor, MAZE_ORIGIN_X, MAZE_ORIGIN_Y]

/-- Witness for C3: the player of the initial state moved up for a tenth of
a second. -/
theorem MoveActor_tile_consistent_witness :
    (0 : ℚ) < 16
    ∧ (MoveActor (initialPlayer 0 0) .up (1 / 10) 16).currentTileX
        = ⌊((MoveActor (initialPlayer 0 0) .up (1 / 10) 16).centroid.x - 50) / 16⌋
    ∧ (MoveActor (initialPlayer 0 0) .up (1 / 10) 16).currentTileY
        = ⌊((MoveActor (initialPlayer 0 0) .up (1 / 10) 16).centroid.y - 50) / 16⌋ :=
  ⟨by norm_num, MoveActor_tile_consistent (initialPlayer 0 0) .up (1 / 10) 16 (by norm_num)⟩

/-- C4: round trip.  For every in-bounds tile (row `r`, column `c`) and every
positive cell size, an actor whose centroid is put at
`CalculatePositionBasedOnTile r c cellSize` gets `currentTileY = r` and
`currentTileX = c` from `SetCurrentTileForActor`. -/
theorem tile_of_tile_centre (actor : Actor) (r c : Int) (cellSize : ℚ)
    (_hr : 0 ≤ r ∧ r < NUM_TILES_VERTICAL) (_hc : 0 ≤ c ∧ c < NUM_TILES_HORIZONTAL)
    (hcs : 0 < cellSize) :
    (SetCurrentTileForActor
        { actor with centroid := CalculatePositionBasedOnTile r c cellSize } cellSize).currentTileY
      = r
    ∧ (SetCurrentTileForActor
        { actor with centroid := CalculatePositionBasedOnTile r c cellSize } cellSize).currentTileX
      = c := by
  have key : ∀ n : Int,
      (⌊((50 : ℚ) + (n : ℚ) * cellSize + cellSize / 2 - 50) / cellSize⌋ : Int) = n := by
    intro n
    have h : ((50 : ℚ) + (n : ℚ) * cellSize + cellSize / 2 - 50) / cellSize
        = (n : ℚ) + 1 / 2 := by
      field_simp
      ring
    rw [h, Int.floor_eq_iff]
    constructor <;> norm_num
  simp only [SetCurrentTileForActor, CalculatePositionBasedOnTile, MAZE_ORIGIN_X, MAZE_ORIGIN_Y]
  exact ⟨key r, key c⟩

/-- Witness for C4: tile (23,13), the player's starting tile, with the cell
size of `main`. -/
theorem tile_of_tile_centre_witness :
    (SetCurrentTileForActor
        { tunnelActor with centroid := CalculatePositionBasedOnTile 23 13 16 } 16).currentTileY
      = 23
    ∧ (SetCurrentTileForActor
        { tunnelActor with centroid := CalculatePositionBasedOnTile 23 13 16 } 16).currentTileX
      = 13 :=
  tile_of_tile_centre tunnelActor 23 13 16 (by decide) (by decide) (by norm_num)

/-- C5: `IsReversal a b` is true exactly for the opposite pairs up/down,
down/up, left/right and right/left; it is symmetric; and it is false when
either argument is `none` or when the two arguments are equal. -/
theorem IsReversal_characterisation (a b : Orientation) :
    (IsReversal a b = true ↔
        (a = .up ∧ b = .down) ∨ (a = .down ∧ b = .up)
        ∨ (a = .left ∧ b = .right) ∨ (a = .right ∧ b = .left))
    ∧ IsReversal a b = IsReversal b a
    ∧ (a = .none ∨ b = .none ∨ a = b → IsReversal a b = false) := by
  cases a <;> cases b <;> decide

/-- Witness for C5: the pair (`none`, `up`). -/
theorem IsReversal_characterisation_witness :
    IsReversal .none .up = false :=
  (IsReversal_characterisation .none .up).2.2 (Or.inl rfl)

/-- C2, evaluated at a failing input: an actor at the centre of tile (14,0)
of the maze, heading left, whose cached tile agrees with its centroid and is an
in-bounds floor cell, is asked to move left for one sixtieth of a second.  The
target tile is column 0, and the colinear branch of `IsTraversable` then looks
up column `0 - 1` of row 14, which is outside the array. -/
theorem IsTraversable_reads_outside_grid :
    tunnelActor.currentTileX = ⌊(tunnelActor.centroid.x - MAZE_ORIGIN_X) / cellSize⌋
    ∧ tunnelActor.currentTileY = ⌊(tunnelActor.centroid.y - MAZE_ORIGIN_Y) / cellSize⌋
    ∧ cellAt grid tunnelActor.currentTileY tunnelActor.currentTileX = some 1
    ∧ (⌊(tunnelActor.centroid.x - tunnelActor.speed * (1 / 60) - MAZE_ORIGIN_X) / cellSize⌋ : Int)
        = 0
    ∧ cellAt grid tunnelActor.currentTileY (0 - 1) = Option.none
    ∧ IsTraversable tunnelActor .left (1 / 60) cellSize grid = Option.none := by
  have h0 : (⌊(tunnelActor.centroid.x - tunnelActor.speed * (1 / 60) - MAZE_ORIGIN_X)
      / cellSize⌋ : Int) = 0 := by
    norm_num [tunnelActor, CalculatePositionBasedOnTile, MAZE_ORIGIN_X, cellSize, PIXELS_PER_TILE,
      MAZE_SCALE, Int.floor_eq_iff]
  refine ⟨?_, ?_, by decide, h0, by decide, ?_⟩
  · norm_num [tunnelActor, CalculatePositionBasedOnTile, MAZE_ORIGIN_X, cellSize, PIXELS_PER_TILE,
      MAZE_SCALE]
  · norm_num [tunnelActor, CalculatePositionBasedOnTile, MAZE_ORIGIN_Y, cellSize, PIXELS_PER_TILE,
      MAZE_SCALE, Int.floor_eq_iff]
  · simp only [IsTraversable, h0]
    have h1 : cellAt grid tunnelActor.currentTileY 0 = some 1 := by decide
    have h2 : cellAt grid tunnelActor.currentTileY (-1) = Option.none := by decide
    have h3 : tunnelActor.orientation = .left := rfl
    simp [h1, h2, h3, NUM_TILES_HORIZONTAL]

/-! ### The decision loop -/

/-- Distinct directions have distinct positions in `directions`. -/
theorem directionRank_injective (d e : Orientation) (h : directionRank d = directionRank e) :
    d = e := by
  cases d <;> cases e <;> first | rfl | (exact absurd h (by decide))

/-- Committing a second direction overwrites the first. -/
theorem committed_committed (b : Ghost) (d e : Orientation) :
    committed (committed b d) e = committed b e := by
  cases e <;> rfl

/-- The four branches of the body of the decision loop, in one formula. -/
theorem decisionPass_def (g : Grid) (m : ℚ) (b : Ghost) (d : Orientation) (hd : d ≠ .none) :
    decisionPass g (m, b) d =
      if IsReversal b.orientation d = true then some (m, b)
      else (cellAt g (neighbourTile b d).1 (neighbourTile b d).2).bind fun cell =>
        if cell = 1 then
          if (manhattan b d : ℚ) < m then some ((manhattan b d : ℚ), committed b d)
          else some (m, b)
        else some (m, b) := by
  cases d <;> first | exact absurd rfl hd | rfl

/-- A pass of the decision loop for `none` changes nothing. -/
theorem decisionPass_none (g : Grid) (s : ℚ × Ghost) : decisionPass g s .none = some s := by
  simp [decisionPass]

/-- One pass of the decision loop either leaves the state alone or commits
the direction it tried, which then qualifies and is strictly nearer than the
distance held so far. -/
theorem decisionPass_some (g : Grid) (m : ℚ) (b : Ghost) (d : Orientation) (s : ℚ × Ghost)
    (h : decisionPass g (m, b) d = some s) :
    s = (m, b)
    ∨ (Qualifies g b d ∧ (manhattan b d : ℚ) < m ∧ s = ((manhattan b d : ℚ), committed b d)) := by
  by_cases hd : d = .none
  · subst hd
    rw [decisionPass_none] at h
    exact Or.inl (Option.some.inj h).symm
  · rw [decisionPass_def g m b d hd] at h
    by_cases hrev : IsReversal b.orientation d = true
    · rw [if_pos hrev] at h
      exact Or.inl (Option.some.inj h).symm
    · rw [if_neg hrev] at h
      obtain ⟨v, hv, h⟩ := Option.bind_eq_some.mp h
      by_cases h1 : v = 1
      · rw [if_pos h1] at h
        by_cases h2 : (manhattan b d : ℚ) < m
        · rw [if_pos h2] at h
          refine Or.inr ⟨⟨hd, by simpa using hrev, ?_⟩, h2, (Option.some.inj h).symm⟩
          rw [← h1]; exact hv
        · rw [if_neg h2] at h
          exact Or.inl (Option.some.inj h).symm
      · rw [if_neg h1] at h
        exact Or.inl (Option.some.inj h).symm

/-- When the neighbour cell in the tried direction is inside the grid, a
pass of the decision loop returns: it commits the direction when that direction
qualifies and is strictly nearer than the distance held so far, and leaves the
state alone otherwise. -/
theorem decisionPass_eq (g : Grid) (m : ℚ) (b : Ghost) (d : Orientation) (v : Int)
    (hd : d ≠ .none)
    (hv : cellAt g (neighbourTile b d).1 (neighbourTile b d).2 = some v) :
    (Qualifies g b d ∧ (manhattan b d : ℚ) < m
        ∧ decisionPass g (m, b) d = some ((manhattan b d : ℚ), committed b d))
    ∨ (¬ (Qualifies g b d ∧ (manhattan b d : ℚ) < m)
        ∧ decisionPass g (m, b) d = some (m, b)) := by
  rw [decisionPass_def g m b d hd, hv]
  by_cases hrev : IsReversal b.orientation d = true
  · right
    refine ⟨fun hq => ?_, by simp [hrev]⟩
    have := hq.1.2.1
    rw [hrev] at this
    exact absurd this (by decide)
  · have hrev2 : IsReversal b.orientation d = false := by simpa using hrev
    by_cases h1 : v = 1
    · by_cases h2 : (manhattan b d : ℚ) < m
      · left
        refine ⟨⟨hd, hrev2, by rw [hv, h1]⟩, h2, ?_⟩
        simp [hrev2, h1, h2]
      · right
        refine ⟨fun hq => h2 hq.2, ?_⟩
        simp [hrev2, h1, h2]
    · right
      refine ⟨fun hq => h1 ?_, ?_⟩
      · have := hq.1.2.2
        rw [hv] at this
        exact Option.some.inj this
      · simp [hrev2, h1]


/-- The loop invariant survives one pass of the decision loop, for the
direction of rank `k`, when the neighbour cell in that direction is inside the
grid and its distance is below `FLT_MAX`. -/
theorem decisionPass_inv (g : Grid) (b0 : Ghost) (k : Nat) (s : ℚ × Ghost) (d : Orientation)
    (v : Int) (hinv : DecisionInv g b0 k s) (hk : directionRank d = k) (hd : d ≠ .none)
    (hv : cellAt g (neighbourTile b0 d).1 (neighbourTile b0 d).2 = some v)
    (hb : (manhattan b0 d : ℚ) < FLT_MAX) :
    ∃ s2, decisionPass g s d = some s2 ∧ DecisionInv g b0 (k + 1) s2 := by
  have hrank : ∀ e, directionRank e < k + 1 → directionRank e < k ∨ e = d := by
    intro e he
    by_cases h : directionRank e < k
    · exact Or.inl h
    · exact Or.inr (directionRank_injective e d (by omega))
  rcases hinv with ⟨hs, hnone⟩ | ⟨c, hc, hqc, hs, hbest⟩
  · subst hs
    rcases decisionPass_eq g FLT_MAX b0 d v hd hv with ⟨hq, _, heq⟩ | ⟨hnq, heq⟩
    · refine ⟨_, heq, Or.inr ⟨d, by omega, hq, rfl, fun e he hqe => ?_⟩⟩
      rcases hrank e he with h | h
      · exact absurd hqe (hnone e h)
      · subst h
        exact ⟨le_refl _, fun _ => le_refl _⟩
    · refine ⟨_, heq, Or.inl ⟨rfl, fun e he hqe => ?_⟩⟩
      rcases hrank e he with h | h
      · exact hnone e h hqe
      · subst h
        exact hnq ⟨hqe, hb⟩
  · subst hs
    have hv2 : cellAt g (neighbourTile (committed b0 c) d).1 (neighbourTile (committed b0 c) d).2
        = some v := hv
    rcases decisionPass_eq g (manhattan b0 c : ℚ) (committed b0 c) d v hd hv2 with
      ⟨hq, hlt, heq⟩ | ⟨hnq, heq⟩
    · have hq2 : Qualifies g b0 d := hq
      have hlt2 : manhattan b0 d < manhattan b0 c := by
        have h : ((manhattan b0 d : Int) : ℚ) < ((manhattan b0 c : Int) : ℚ) := hlt
        exact_mod_cast h
      rw [committed_committed] at heq
      refine ⟨_, heq, Or.inr ⟨d, by omega, hq2, rfl, fun e he hqe => ?_⟩⟩
      rcases hrank e he with h | h
      · have := (hbest e h hqe).1
        exact ⟨by omega, fun h3 => by omega⟩
      · subst h
        exact ⟨le_refl _, fun _ => le_refl _⟩
    · refine ⟨_, heq, Or.inr ⟨c, by omega, hqc, rfl, fun e he hqe => ?_⟩⟩
      rcases hrank e he with h | h
      · exact hbest e h hqe
      · subst h
        have hge : manhattan b0 c ≤ manhattan b0 e := by
          by_contra hcon
          apply hnq
          refine ⟨hqe, ?_⟩
          have h : manhattan b0 e < manhattan b0 c := by omega
          have h2 : ((manhattan b0 e : Int) : ℚ) < ((manhattan b0 c : Int) : ℚ) := by
            exact_mod_cast h
          exact h2
        exact ⟨hge, fun _ => by omega⟩

/-- Every distance the decision loop computes is below `FLT_MAX` when the
four neighbours of `nextTile` are inside the grid and the target tile indices
are in the range of `int`. -/
theorem manhattan_lt_FLT_MAX (b : Ghost) (d : Orientation)
    (hrow : 1 ≤ b.nextTileY ∧ b.nextTileY + 1 < NUM_TILES_VERTICAL)
    (hcol : 1 ≤ b.nextTileX ∧ b.nextTileX + 1 < NUM_TILES_HORIZONTAL)
    (htx : -2147483648 ≤ b.targetTileX ∧ b.targetTileX < 2147483648)
    (hty : -2147483648 ≤ b.targetTileY ∧ b.targetTileY < 2147483648) :
    (manhattan b d : ℚ) < FLT_MAX := by
  simp only [NUM_TILES_VERTICAL, NUM_TILES_HORIZONTAL] at hrow hcol
  have h : manhattan b d ≤ 4294967400 := by
    unfold manhattan
    have h1 : |(neighbourTile b d).1 - b.targetTileY| ≤ 2147483700 := by
      cases d <;> simp only [neighbourTile] <;> exact abs_le.mpr ⟨by omega, by omega⟩
    have h2 : |(neighbourTile b d).2 - b.targetTileX| ≤ 2147483700 := by
      cases d <;> simp only [neighbourTile] <;> exact abs_le.mpr ⟨by omega, by omega⟩
    omega
  have h2 : ((manhattan b d : Int) : ℚ) ≤ ((4294967400 : Int) : ℚ) := by exact_mod_cast h
  calc (manhattan b d : ℚ) ≤ ((4294967400 : Int) : ℚ) := h2
    _ < FLT_MAX := by norm_num [FLT_MAX]

/-- A cell whose indices are inside the grid has a value. -/
theorem cellAt_isSome (g : Grid) (row column : Int)
    (hrow : 0 ≤ row ∧ row < NUM_TILES_VERTICAL)
    (hcol : 0 ≤ column ∧ column < NUM_TILES_HORIZONTAL) :
    ∃ v, cellAt g row column = some v := by
  unfold cellAt
  rw [dif_pos ⟨hrow.1, hrow.2, hcol.1, hcol.2⟩]
  exact ⟨_, rfl⟩

/-- C6: the decision step, run with `pendingDirection = none` at a `nextTile`
whose four neighbours are inside the grid (target tile indices in the range of
`int`), returns.  If some direction qualifies, the step sets `pendingDirection`
to a qualifying direction whose neighbour tile has the least Manhattan distance
to the target tile, the earliest in the order up, left, down, right among
directions at that distance, and sets `nextNextTile` to that neighbour tile,
changing nothing else; if none qualifies, the ghost is unchanged and
`pendingDirection` stays `none`. -/
theorem ghostDecision_selects_nearest (g : Grid) (blinky : Ghost)
    (hpending : blinky.pendingDirection = .none)
    (hrow : 1 ≤ blinky.nextTileY ∧ blinky.nextTileY + 1 < NUM_TILES_VERTICAL)
    (hcol : 1 ≤ blinky.nextTileX ∧ blinky.nextTileX + 1 < NUM_TILES_HORIZONTAL)
    (htx : -2147483648 ≤ blinky.targetTileX ∧ blinky.targetTileX < 2147483648)
    (hty : -2147483648 ≤ blinky.targetTileY ∧ blinky.targetTileY < 2147483648) :
    ∃ decided, ghostDecision g blinky = some decided
      ∧ ((∃ d, Qualifies g blinky d) →
          Qualifies g blinky decided.pendingDirection
          ∧ (∀ e, Qualifies g blinky e →
              manhattan blinky decided.pendingDirection ≤ manhattan blinky e
              ∧ (manhattan blinky e = manhattan blinky decided.pendingDirection →
                  directionRank decided.pendingDirection ≤ directionRank e))
          ∧ (decided.nextNextTileY, decided.nextNextTileX)
              = neighbourTile blinky decided.pendingDirection
          ∧ decided = committed blinky decided.pendingDirection)
      ∧ ((¬ ∃ d, Qualifies g blinky d) →
          decided.pendingDirection = .none ∧ decided = blinky) := by
  have hcell : ∀ d, ∃ v, cellAt g (neighbourTile blinky d).1 (neighbourTile blinky d).2 = some v := by
    intro d
    apply cellAt_isSome
    · cases d <;> simp only [neighbourTile] <;> omega
    · cases d <;> simp only [neighbourTile] <;> omega
  have hbound := fun d => manhattan_lt_FLT_MAX blinky d hrow hcol htx hty
  have h0 : DecisionInv g blinky 0 (FLT_MAX, blinky) :=
    Or.inl ⟨rfl, fun d hd => absurd hd (Nat.not_lt_zero _)⟩
  obtain ⟨v1, hv1⟩ := hcell .up
  obtain ⟨v2, hv2⟩ := hcell .left
  obtain ⟨v3, hv3⟩ := hcell .down
  obtain ⟨v4, hv4⟩ := hcell .right
  obtain ⟨s1, e1, i1⟩ := decisionPass_inv g blinky 0 _ .up v1 h0 rfl (by decide) hv1 (hbound _)
  obtain ⟨s2, e2, i2⟩ := decisionPass_inv g blinky 1 _ .left v2 i1 rfl (by decide) hv2 (hbound _)
  obtain ⟨s3, e3, i3⟩ := decisionPass_inv g blinky 2 _ .down v3 i2 rfl (by decide) hv3 (hbound _)
  obtain ⟨s4, e4, i4⟩ := decisionPass_inv g blinky 3 _ .right v4 i3 rfl (by decide) hv4 (hbound _)
  have hloop : ghostDecision g blinky = some s4.2 := by
    simp [ghostDecision, hpending, decisionLoop, directions, e1, e2, e3, e4]
  have hlt : ∀ d, Qualifies g blinky d → directionRank d < 4 := by
    intro d hq
    have := hq.1
    cases d <;> first | decide | exact absurd rfl this
  refine ⟨s4.2, hloop, ?_, ?_⟩
  · rintro ⟨d, hq⟩
    rcases i4 with ⟨_, hnone⟩ | ⟨c, _, hqc, hs, hbest⟩
    · exact absurd hq (hnone d (hlt d hq))
    · have hpd : s4.2.pendingDirection = c := by rw [hs]; rfl
      rw [hpd]
      refine ⟨hqc, fun e hqe => hbest e (hlt e hqe) hqe, ?_, ?_⟩
      · rw [hs]; rfl
      · rw [hs]
  · intro hno
    rcases i4 with ⟨hs, _⟩ | ⟨c, _, hqc, _, _⟩
    · rw [hs]
      exact ⟨hpending, rfl⟩
    · exact absurd ⟨c, hqc⟩ hno


/-- Witness for C6: the ghost of the initial state, with `nextTile` (11,12),
steering toward tile (23,13). -/
theorem ghostDecision_selects_nearest_witness :
    ∃ decided, ghostDecision grid (initialBlinky 0 0 0 0 13 23) = some decided
      ∧ ((∃ d, Qualifies grid (initialBlinky 0 0 0 0 13 23) d) →
          Qualifies grid (initialBlinky 0 0 0 0 13 23) decided.pendingDirection
          ∧ (∀ e, Qualifies grid (initialBlinky 0 0 0 0 13 23) e →
              manhattan (initialBlinky 0 0 0 0 13 23) decided.pendingDirection
                ≤ manhattan (initialBlinky 0 0 0 0 13 23) e
              ∧ (manhattan (initialBlinky 0 0 0 0 13 23) e
                  = manhattan (initialBlinky 0 0 0 0 13 23) decided.pendingDirection →
                  directionRank decided.pendingDirection ≤ directionRank e))
          ∧ (decided.nextNextTileY, decided.nextNextTileX)
              = neighbourTile (initialBlinky 0 0 0 0 13 23) decided.pendingDirection
          ∧ decided = committed (initialBlinky 0 0 0 0 13 23) decided.pendingDirection)
      ∧ ((¬ ∃ d, Qualifies grid (initialBlinky 0 0 0 0 13 23) d) →
          decided.pendingDirection = .none ∧ decided = initialBlinky 0 0 0 0 13 23) :=
  ghostDecision_selects_nearest grid (initialBlinky 0 0 0 0 13 23) rfl (by decide) (by decide)
    (by decide) (by decide)

/-- A pass of the decision loop for the reversal of the heading changes nothing. -/
theorem decisionPass_reversal (g : Grid) (s : ℚ × Ghost) (d : Orientation)
    (h : IsReversal s.2.orientation d = true) : decisionPass g s d = some s := by
  simp [decisionPass, h]

/-- A pass of the decision loop toward a cell that is not a floor cell
changes nothing. -/
theorem decisionPass_blocked (g : Grid) (s : ℚ × Ghost) (d : Orientation) (v : Int)
    (hv : cellAt g (neighbourTile s.2 d).1 (neighbourTile s.2 d).2 = some v) (hne : v ≠ 1) :
    decisionPass g s d = some s := by
  by_cases hd : d = .none
  · subst hd
    exact decisionPass_none g s
  · rcases decisionPass_eq g s.1 s.2 d v hd hv with ⟨hq, _, _⟩ | ⟨_, heq⟩
    · have := hq.2.2
      rw [hv] at this
      exact absurd (Option.some.inj this) hne
    · exact heq

/-- A pass of the decision loop toward a floor cell that is not behind the
ghost and is strictly nearer than the distance held so far commits it. -/
theorem decisionPass_open (g : Grid) (s : ℚ × Ghost) (d : Orientation) (hd : d ≠ .none)
    (hrev : IsReversal s.2.orientation d = false)
    (hv : cellAt g (neighbourTile s.2 d).1 (neighbourTile s.2 d).2 = some 1)
    (hlt : (manhattan s.2 d : ℚ) < s.1) :
    decisionPass g s d = some ((manhattan s.2 d : ℚ), committed s.2 d) := by
  rcases decisionPass_eq g s.1 s.2 d 1 hd hv with ⟨_, _, heq⟩ | ⟨hnq, _⟩
  · exact heq
  · exact absurd ⟨⟨hd, hrev, hv⟩, hlt⟩ hnq

/-- The decision step on the maze at `nextTile` (11,13), heading left, with
target tile (23,13): up (10,13) and down (12,13) are not floor cells, right is
the reversal of the heading, left (11,12) is a floor cell, and the step commits
`left`. -/
theorem ghostDecision_at_11_13 (b : Ghost) (hnx : b.nextTileX = 13) (hny : b.nextTileY = 11)
    (ho : b.orientation = .left) (hp : b.pendingDirection = .none)
    (htx : b.targetTileX = 13) (hty : b.targetTileY = 23) :
    ghostDecision grid b = some (committed b .left) := by
  have p1 : decisionPass grid (FLT_MAX, b) .up = some (FLT_MAX, b) := by
    apply decisionPass_blocked grid (FLT_MAX, b) .up 0 _ (by decide)
    simp only [neighbourTile, hnx, hny]
    decide
  have p2 : decisionPass grid (FLT_MAX, b) .left
      = some ((manhattan b .left : ℚ), committed b .left) := by
    apply decisionPass_open grid (FLT_MAX, b) .left (by decide)
    · simp only [ho]
      decide
    · simp only [neighbourTile, hnx, hny]
      decide
    · simp only [manhattan, neighbourTile, hnx, hny, htx, hty]
      norm_num [FLT_MAX]
  have p3 : decisionPass grid ((manhattan b .left : ℚ), committed b .left) .down
      = some ((manhattan b .left : ℚ), committed b .left) := by
    apply decisionPass_blocked grid _ .down 0 _ (by decide)
    simp only [neighbourTile, committed, hnx, hny]
    decide
  have p4 : decisionPass grid ((manhattan b .left : ℚ), committed b .left) .right
      = some ((manhattan b .left : ℚ), committed b .left) := by
    apply decisionPass_reversal
    simp only [committed, ho]
    decide
  simp [ghostDecision, hp, decisionLoop, directions, p1, p2, p3, p4]

/-! ### The frame -/

/-- After `MoveActor` the actor's orientation is the direction moved in. -/
theorem MoveActor_orientation (actor : Actor) (orientation : Orientation)
    (deltaTime cellSize : ℚ) :
    (MoveActor actor orientation deltaTime cellSize).orientation = orientation := by
  simp [MoveActor, SetCurrentTileForActor]

/-- One pass of the decision loop leaves the `Actor` part of the ghost alone,
and either keeps `pendingDirection` or sets it to a direction that is not the
reversal of the heading. -/
theorem decisionPass_keeps (g : Grid) (s s2 : ℚ × Ghost) (d : Orientation)
    (h : decisionPass g s d = some s2) :
    s2.2.toActor = s.2.toActor
    ∧ (s2.2.pendingDirection = s.2.pendingDirection
      ∨ IsReversal s.2.orientation s2.2.pendingDirection = false) := by
  rcases decisionPass_some g s.1 s.2 d s2 h with h1 | ⟨hq, _, h1⟩
  · rw [h1]
    exact ⟨rfl, Or.inl rfl⟩
  · rw [h1]
    exact ⟨rfl, Or.inr hq.2.1⟩

/-- The decision loop, over any list of directions, leaves the `Actor` part
of the ghost alone, and either keeps `pendingDirection` or sets it to a
direction that is not the reversal of the heading. -/
theorem decisionLoop_keeps (g : Grid) (ds : List Orientation) :
    ∀ s s2 : ℚ × Ghost, decisionLoop g s ds = some s2 →
      s2.2.toActor = s.2.toActor
      ∧ (s2.2.pendingDirection = s.2.pendingDirection
        ∨ IsReversal s.2.orientation s2.2.pendingDirection = false) := by
  induction ds with
  | nil =>
    intro s s2 h
    have : s = s2 := Option.some.inj h
    subst this
    exact ⟨rfl, Or.inl rfl⟩
  | cons d rest ih =>
    intro s s2 h
    obtain ⟨s1, h1, h2⟩ := Option.bind_eq_some.mp h
    obtain ⟨ha, hp⟩ := decisionPass_keeps g s s1 d h1
    obtain ⟨ha2, hp2⟩ := ih s1 s2 h2
    refine ⟨ha2.trans ha, ?_⟩
    rcases hp2 with hp2 | hp2
    · rw [hp2]
      exact hp
    · right
      have ho : s1.2.orientation = s.2.orientation := by
        show s1.2.toActor.orientation = s.2.toActor.orientation
        rw [ha]
      rw [← ho]
      exact hp2

/-- The decision step leaves the `Actor` part of the ghost alone; it keeps a
`pendingDirection` that is not `none`, and the direction it sets is never the
reversal of the heading. -/
theorem ghostDecision_keeps (g : Grid) (b b2 : Ghost) (h : ghostDecision g b = some b2) :
    b2.toActor = b.toActor
    ∧ (b2.pendingDirection = b.pendingDirection
      ∨ (b.pendingDirection = .none ∧ IsReversal b.orientation b2.pendingDirection = false)) := by
  unfold ghostDecision at h
  by_cases hp : b.pendingDirection = .none
  · rw [if_pos hp] at h
    obtain ⟨s2, h1, h2⟩ := Option.map_eq_some'.mp h
    obtain ⟨ha, hq⟩ := decisionLoop_keeps g directions (FLT_MAX, b) s2 h1
    rw [← h2]
    refine ⟨ha, ?_⟩
    rcases hq with hq | hq
    · exact Or.inl hq
    · exact Or.inr ⟨hp, hq⟩
  · rw [if_neg hp] at h
    have : b = b2 := Option.some.inj h
    subst this
    exact ⟨rfl, Or.inl rfl⟩

/-- The statement run when the ghost does not commit keeps the heading and
`pendingDirection`. -/
theorem ghostContinue_keeps (g : Grid) (deltaTime cs : ℚ) (b b2 : Ghost)
    (h : ghostContinue g deltaTime cs b = some b2) :
    b2.orientation = b.orientation ∧ b2.pendingDirection = b.pendingDirection := by
  unfold ghostContinue at h
  obtain ⟨ok, _, h2⟩ := Option.bind_eq_some.mp h
  cases ok
  · have : b = b2 := Option.some.inj (by simpa using h2)
    subst this
    exact ⟨rfl, rfl⟩
  · have : MoveGhost b b.orientation deltaTime cs = b2 := Option.some.inj (by simpa using h2)
    subst this
    exact ⟨MoveActor_orientation _ _ _ _, rfl⟩

/-- The commit/move step either commits (the heading becomes the old
`pendingDirection`, and `pendingDirection` becomes `none`) or keeps both the
heading and `pendingDirection`. -/
theorem ghostMove_keeps (g : Grid) (deltaTime cs : ℚ) (b b2 : Ghost)
    (h : ghostMove g deltaTime cs b = some b2) :
    (b2.orientation = b.pendingDirection ∧ b2.pendingDirection = .none)
    ∨ (b2.orientation = b.orientation ∧ b2.pendingDirection = b.pendingDirection) := by
  unfold ghostMove at h
  split_ifs at h with hreach
  · obtain ⟨ok, _, h2⟩ := Option.bind_eq_some.mp h
    cases ok
    · exact Or.inr (ghostContinue_keeps g deltaTime cs b b2 (by simpa using h2))
    · left
      have h3 := Option.some.inj (by simpa using h2 : some _ = some b2)
      rw [← h3]
      exact ⟨MoveActor_orientation _ _ _ _, rfl⟩
  · exact Or.inr (ghostContinue_keeps g deltaTime cs b b2 h)

/-- The ghost part of a frame: with `p` the `pendingDirection` after the
decision step, `p` is the old `pendingDirection` or (when that was `none`) a
direction that is not the reversal of the old heading, and the step either
commits `p` as the new heading, clearing `pendingDirection`, or keeps the
heading and ends with `pendingDirection = p`. -/
theorem ghostStep_keeps (g : Grid) (deltaTime cs : ℚ) (player : Actor) (b b2 : Ghost)
    (h : ghostStep g deltaTime cs player b = some b2) :
    ∃ p, (p = b.pendingDirection
        ∨ (b.pendingDirection = .none ∧ IsReversal b.orientation p = false))
      ∧ ((b2.orientation = p ∧ b2.pendingDirection = .none)
        ∨ (b2.orientation = b.orientation ∧ b2.pendingDirection = p)) := by
  unfold ghostStep at h
  obtain ⟨decided, h1, h2⟩ := Option.bind_eq_some.mp h
  obtain ⟨ha, hp⟩ := ghostDecision_keeps g _ decided h1
  have ho : decided.orientation = b.orientation := by
    show decided.toActor.orientation = b.toActor.orientation
    rw [ha]
  refine ⟨decided.pendingDirection, hp, ?_⟩
  rcases ghostMove_keeps g deltaTime cs decided b2 h2 with hm | hm
  · exact Or.inl hm
  · exact Or.inr ⟨hm.1.trans ho, hm.2⟩

/-- In every reachable world a pending direction is not the reversal of the
ghost's heading. -/
theorem reachable_pending_not_reversal (g : Grid) (w : World) (hw : Reachable g w) :
    IsReversal w.blinky.orientation w.blinky.pendingDirection = false := by
  induction hw with
  | start pw ph bw bh nnx nny tx ty => rfl
  | @step w w2 inp deltaTime _ _ hframe ih =>
    unfold frame at hframe
    obtain ⟨player, _, h2⟩ := Option.bind_eq_some.mp hframe
    obtain ⟨blinky, h3, h4⟩ := Option.bind_eq_some.mp h2
    have h5 := Option.some.inj h4
    subst h5
    obtain ⟨p, hp, hres⟩ := ghostStep_keeps g deltaTime cellSize player _ blinky h3
    show IsReversal blinky.orientation blinky.pendingDirection = false
    have hp2 : IsReversal w.blinky.orientation p = false := by
      rcases hp with hp | hp
      · rw [hp]; exact ih
      · exact hp.2
    rcases hres with ⟨h6, h7⟩ | ⟨h6, h7⟩
    · rw [h7]
      cases blinky.orientation <;> rfl
    · rw [h6, h7]
      exact hp2

/-- A pass of the decision loop toward a tile that is not strictly nearer
than the distance held so far changes nothing. -/
theorem decisionPass_not_nearer (g : Grid) (s : ℚ × Ghost) (d : Orientation) (v : Int)
    (hv : cellAt g (neighbourTile s.2 d).1 (neighbourTile s.2 d).2 = some v)
    (hge : ¬ (manhattan s.2 d : ℚ) < s.1) :
    decisionPass g s d = some s := by
  by_cases hd : d = .none
  · subst hd
    exact decisionPass_none g s
  · rcases decisionPass_eq g s.1 s.2 d v hd hv with ⟨_, hlt, _⟩ | ⟨_, heq⟩
    · exact absurd hlt hge
    · exact heq

/-! ### The first frame of the game -/

/-- The player update of the first frame, with the left key down and a frame
time of one sixtieth of a second: the player moves left. -/
theorem firstFrame_player :
    playerUpdate grid .left (1 / 60) cellSize (initialPlayer 0 0)
      = some (MoveActor (initialPlayer 0 0) .left (1 / 60) cellSize) := by
  have hfloor : (⌊((initialPlayer 0 0).centroid.x - (initialPlayer 0 0).speed * (1 / 60)
      - MAZE_ORIGIN_X) / cellSize⌋ : Int) = 13 := by
    norm_num [initialPlayer, CalculatePositionBasedOnTile, MAZE_ORIGIN_X, STARTING_COLUMN,
      cellSize, PIXELS_PER_TILE, MAZE_SCALE, Int.floor_eq_iff]
  have c1 : cellAt grid (initialPlayer 0 0).currentTileY 13 = some 1 := by decide
  have c2 : cellAt grid (initialPlayer 0 0).currentTileY (13 - 1) = some 1 := by decide
  have ho : (initialPlayer 0 0).orientation = .left := rfl
  have ht : IsTraversable (initialPlayer 0 0) .left (1 / 60) cellSize grid = some true := by
    simp only [IsTraversable, hfloor, c1, c2, ho]
    simp [NUM_TILES_HORIZONTAL]
  unfold playerUpdate
  rw [ht]
  rfl

/-- The player's tile after the first frame is still (23,13). -/
theorem firstFrame_player_tile :
    (MoveActor (initialPlayer 0 0) .left (1 / 60) cellSize).currentTileX = 13
    ∧ (MoveActor (initialPlayer 0 0) .left (1 / 60) cellSize).currentTileY = 23 := by
  constructor <;>
    norm_num [MoveActor, SetCurrentTileForActor, initialPlayer, CalculatePositionBasedOnTile,
      MAZE_ORIGIN_X, MAZE_ORIGIN_Y, STARTING_COLUMN, STARTING_ROW, cellSize, PIXELS_PER_TILE,
      MAZE_SCALE, Int.floor_eq_iff]

/-- The decision step on the maze at `nextTile` (11,12), heading left, with
target tile (23,13): up (10,12) and left (11,11) are floor cells at the same
distance 14, down (12,12) is not a floor cell, right is the reversal of the
heading, and the step commits `up`. -/
theorem ghostDecision_at_11_12 (b : Ghost) (hnx : b.nextTileX = 12) (hny : b.nextTileY = 11)
    (ho : b.orientation = .left) (hp : b.pendingDirection = .none)
    (htx : b.targetTileX = 13) (hty : b.targetTileY = 23) :
    ghostDecision grid b = some (committed b .up) := by
  have p1 : decisionPass grid (FLT_MAX, b) .up
      = some ((manhattan b .up : ℚ), committed b .up) := by
    apply decisionPass_open grid (FLT_MAX, b) .up (by decide)
    · simp only [ho]
      decide
    · simp only [neighbourTile, hnx, hny]
      decide
    · simp only [manhattan, neighbourTile, hnx, hny, htx, hty]
      norm_num [FLT_MAX]
  have p2 : decisionPass grid ((manhattan b .up : ℚ), committed b .up) .left
      = some ((manhattan b .up : ℚ), committed b .up) := by
    apply decisionPass_not_nearer grid _ .left 1
    · simp only [neighbourTile, committed, hnx, hny]
      decide
    · simp only [manhattan, neighbourTile, committed, hnx, hny, htx, hty]
      norm_num
  have p3 : decisionPass grid ((manhattan b .up : ℚ), committed b .up) .down
      = some ((manhattan b .up : ℚ), committed b .up) := by
    apply decisionPass_blocked grid _ .down 0 _ (by decide)
    simp only [neighbourTile, committed, hnx, hny]
    decide
  have p4 : decisionPass grid ((manhattan b .up : ℚ), committed b .up) .right
      = some ((manhattan b .up : ℚ), committed b .up) := by
    apply decisionPass_reversal
    simp only [committed, ho]
    decide
  simp [ghostDecision, hp, decisionLoop, directions, p1, p2, p3, p4]

/-- The ghost part of the first frame: the ghost decides `up` for the tile
after (11,12) and, not yet at the centre of (11,12), keeps moving left. -/
theorem firstFrame_ghost :
    ghostStep grid (1 / 60) cellSize (MoveActor (initialPlayer 0 0) .left (1 / 60) cellSize)
        (initialBlinky 0 0 0 0 0 0)
      = some (MoveGhost (committed (initialBlinky 0 0 0 0 13 23) .up) .left (1 / 60) cellSize) := by
  have hdec : ghostDecision grid (initialBlinky 0 0 0 0 13 23)
      = some (committed (initialBlinky 0 0 0 0 13 23) .up) :=
    ghostDecision_at_11_12 _ rfl rfl rfl rfl rfl rfl
  have hfar : ¬ (|(committed (initialBlinky 0 0 0 0 13 23) .up).pendingPosition.x
        - (committed (initialBlinky 0 0 0 0 13 23) .up).centroid.x| < 1
      ∧ |(committed (initialBlinky 0 0 0 0 13 23) .up).pendingPosition.y
        - (committed (initialBlinky 0 0 0 0 13 23) .up).centroid.y| < 1) := by
    norm_num [committed, initialBlinky, CalculatePositionBasedOnTile, MAZE_ORIGIN_X,
      cellSize, PIXELS_PER_TILE, MAZE_SCALE]
  have hfloor : (⌊((initialBlinky 0 0 0 0 13 23).centroid.x
      - (initialBlinky 0 0 0 0 13 23).speed * (1 / 60) - MAZE_ORIGIN_X) / cellSize⌋ : Int) = 13 := by
    norm_num [initialBlinky, CalculatePositionBasedOnTile, MAZE_ORIGIN_X,
      cellSize, PIXELS_PER_TILE, MAZE_SCALE, Int.floor_eq_iff]
  have c1 : cellAt grid (initialBlinky 0 0 0 0 13 23).currentTileY 13 = some 1 := by decide
  have c2 : cellAt grid (initialBlinky 0 0 0 0 13 23).currentTileY (13 - 1) = some 1 := by decide
  have ht : IsTraversable (committed (initialBlinky 0 0 0 0 13 23) .up).toActor .left (1 / 60)
      cellSize grid = some true := by
    show IsTraversable (initialBlinky 0 0 0 0 13 23).toActor .left (1 / 60) cellSize grid = some true
    have ho : (initialBlinky 0 0 0 0 13 23).orientation = .left := rfl
    simp only [IsTraversable, hfloor, c1, c2, ho]
    simp [NUM_TILES_HORIZONTAL]
  have hcont : ghostContinue grid (1 / 60) cellSize (committed (initialBlinky 0 0 0 0 13 23) .up)
      = some (MoveGhost (committed (initialBlinky 0 0 0 0 13 23) .up) .left (1 / 60) cellSize) := by
    unfold ghostContinue
    have ho : (committed (initialBlinky 0 0 0 0 13 23) .up).orientation = .left := rfl
    rw [ho, ht]
    rfl
  unfold ghostStep
  rw [firstFrame_player_tile.1, firstFrame_player_tile.2]
  have hrefresh : ({ initialBlinky 0 0 0 0 0 0 with targetTileX := 13, targetTileY := 23 } : Ghost)
      = initialBlinky 0 0 0 0 13 23 := rfl
  rw [hrefresh, hdec]
  simp only [Option.some_bind]
  unfold ghostMove
  rw [if_neg hfar]
  exact hcont

/-- The first frame of the game, with the left key down and a frame time of
one sixtieth of a second, reads no cell outside the grid and produces
`firstFrameWorld`. -/
theorem firstFrame_eq :
    frame grid cellSize .left (1 / 60)
        { player := initialPlayer 0 0, blinky := initialBlinky 0 0 0 0 0 0 }
      = some firstFrameWorld := by
  unfold frame
  simp only [firstFrame_player, Option.some_bind, firstFrame_ghost]
  rfl

/-- The world after the first frame is reachable. -/
theorem firstFrame_reachable : Reachable grid firstFrameWorld :=
  Reachable.step .left (1 / 60) (Reachable.start 0 0 0 0 0 0 0 0) (by norm_num) firstFrame_eq

/-! ### The ghost never reverses -/

/-- C7: the ghost planner never selects a reversal.  For every grid: the
decision step, when it runs (`pendingDirection = none`), never ends with
`pendingDirection` the reversal of the ghost's heading, and it leaves a
`pendingDirection` other than `none` alone; in every world reachable from the
initial state by frames, a `pendingDirection` other than `none` is not the
reversal of the ghost's heading; and across every frame from a reachable world
the ghost's new heading is not the reversal of its previous heading. -/
theorem ghost_never_reverses (g : Grid) :
    (∀ blinky decided : Ghost, ghostDecision g blinky = some decided →
        (blinky.pendingDirection = .none →
          IsReversal blinky.orientation decided.pendingDirection = false)
        ∧ (blinky.pendingDirection ≠ .none →
          decided.pendingDirection = blinky.pendingDirection))
    ∧ (∀ w : World, Reachable g w → w.blinky.pendingDirection ≠ .none →
        IsReversal w.blinky.orientation w.blinky.pendingDirection = false)
    ∧ (∀ (w w2 : World) (inp : Orientation) (deltaTime : ℚ), Reachable g w → 0 ≤ deltaTime →
        frame g cellSize inp deltaTime w = some w2 →
        IsReversal w.blinky.orientation w2.blinky.orientation = false) := by
  refine ⟨?_, ?_, ?_⟩
  · intro blinky decided h
    obtain ⟨_, hp⟩ := ghostDecision_keeps g blinky decided h
    constructor
    · intro hnone
      rcases hp with hp | hp
      · rw [hp, hnone]
        cases blinky.orientation <;> rfl
      · exact hp.2
    · intro hne
      rcases hp with hp | hp
      · exact hp
      · exact absurd hp.1 hne
  · intro w hw _
    exact reachable_pending_not_reversal g w hw
  · intro w w2 inp deltaTime hw _ hframe
    have ih := reachable_pending_not_reversal g w hw
    unfold frame at hframe
    obtain ⟨player, _, h2⟩ := Option.bind_eq_some.mp hframe
    obtain ⟨blinky, h3, h4⟩ := Option.bind_eq_some.mp h2
    have h5 := Option.some.inj h4
    subst h5
    obtain ⟨p, hp, hres⟩ := ghostStep_keeps g deltaTime cellSize player _ blinky h3
    show IsReversal w.blinky.orientation blinky.orientation = false
    have hp2 : IsReversal w.blinky.orientation p = false := by
      rcases hp with hp | hp
      · rw [hp]; exact ih
      · exact hp.2
    rcases hres with ⟨h6, _⟩ | ⟨h6, _⟩
    · rw [h6]
      exact hp2
    · rw [h6]
      cases w.blinky.orientation <;> rfl

/-- Witness for C7: the decision step at `scenarioGhost`, and the world after
the first frame, where the ghost heads left with `pendingDirection = up`. -/
theorem ghost_never_reverses_witness :
    IsReversal scenarioGhost.orientation (committed scenarioGhost .left).pendingDirection = false
    ∧ firstFrameWorld.blinky.pendingDirection ≠ .none
    ∧ IsReversal firstFrameWorld.blinky.orientation firstFrameWorld.blinky.pendingDirection
        = false :=
  have hne : firstFrameWorld.blinky.pendingDirection ≠ .none :=
    fun h => Orientation.noConfusion (h : Orientation.up = Orientation.none)
  ⟨((ghost_never_reverses grid).1 scenarioGhost (committed scenarioGhost .left)
      (ghostDecision_at_11_13 scenarioGhost rfl rfl rfl rfl rfl rfl)).1 rfl,
    hne, (ghost_never_reverses grid).2.1 firstFrameWorld firstFrame_reachable hne⟩

/-! ### Scenarios -/

/-- A cell that has a value has its indices inside the grid. -/
theorem cellAt_inBounds (g : Grid) (row column v : Int) (h : cellAt g row column = some v) :
    0 ≤ row ∧ row < NUM_TILES_VERTICAL ∧ 0 ≤ column ∧ column < NUM_TILES_HORIZONTAL := by
  unfold cellAt at h
  by_cases hb : 0 ≤ row ∧ row < NUM_TILES_VERTICAL ∧ 0 ≤ column ∧ column < NUM_TILES_HORIZONTAL
  · exact hb
  · rw [dif_neg hb] at h
    exact absurd h (by simp)

/-- C8, counterexample: in the scenario of the claim (maze grid, decision
tile (11,13), heading left, `pendingDirection = none`, target tile (23,13)) the
candidate left (11,12) is a floor cell, not a blocked one, the candidate down
(12,13) is a wall cell, not an open one, and the decision step commits `left`:
it does not set `pendingDirection` to `down`. -/
theorem ghost_scenario_not_down :
    scenarioGhost.nextTileY = 11 ∧ scenarioGhost.nextTileX = 13
    ∧ scenarioGhost.orientation = .left ∧ scenarioGhost.pendingDirection = .none
    ∧ scenarioGhost.targetTileY = 23 ∧ scenarioGhost.targetTileX = 13
    ∧ cellAt grid 11 12 = some 1
    ∧ cellAt grid 12 13 = some 0
    ∧ ghostDecision grid scenarioGhost = some (committed scenarioGhost .left)
    ∧ ¬ ∃ decided, ghostDecision grid scenarioGhost = some decided
        ∧ decided.pendingDirection = .down := by
  have h := ghostDecision_at_11_13 scenarioGhost rfl rfl rfl rfl rfl rfl
  refine ⟨rfl, rfl, rfl, rfl, rfl, rfl, by decide, by decide, h, ?_⟩
  rintro ⟨decided, hd, hdown⟩
  rw [h] at hd
  have := Option.some.inj hd
  subst this
  exact Orientation.noConfusion (hdown : Orientation.left = Orientation.down)

/-- C8, amended: on the maze grid, with the decision tile at row 11,
column 13, heading left, `pendingDirection = none` and target tile (23,13), the
candidates up (10,13) and down (12,13) are wall cells, left (11,12) is a floor
cell, and the decision step sets `pendingDirection` to `left` with
`nextNextTile = (11,12)`. -/
theorem ghost_scenario_commits_left (b : Ghost) (hny : b.nextTileY = 11) (hnx : b.nextTileX = 13)
    (ho : b.orientation = .left) (hp : b.pendingDirection = .none)
    (hty : b.targetTileY = 23) (htx : b.targetTileX = 13) :
    cellAt grid 10 13 = some 0 ∧ cellAt grid 12 13 = some 0 ∧ cellAt grid 11 12 = some 1
    ∧ ∃ decided, ghostDecision grid b = some decided
        ∧ decided.pendingDirection = .left
        ∧ decided.nextNextTileY = 11 ∧ decided.nextNextTileX = 12 := by
  refine ⟨by decide, by decide, by decide, committed b .left,
    ghostDecision_at_11_13 b hnx hny ho hp htx hty, rfl, ?_, ?_⟩
  · show b.nextTileY = 11
    exact hny
  · show b.nextTileX - 1 = 12
    rw [hnx]
    rfl

/-- Witness for C8 (amended): the ghost `scenarioGhost`. -/
theorem ghost_scenario_commits_left_witness :
    ∃ decided, ghostDecision grid scenarioGhost = some decided
        ∧ decided.pendingDirection = .left
        ∧ decided.nextNextTileY = 11 ∧ decided.nextNextTileX = 12 :=
  (ghost_scenario_commits_left scenarioGhost rfl rfl rfl rfl rfl rfl).2.2.2

/-- C9: wall approach.  An actor heading left, right or `none` is asked to
move left; the target tile (the floor of the hypothetical x position, on the
actor's current row) is a floor cell of the grid and the cell one step further
left exists and is a wall cell.  If the centroid's x is at or left of the
centre of the target tile, `IsTraversable` answers `false`; if it is strictly
right of that centre, `IsTraversable` answers `true`. -/
theorem IsTraversable_left_wall_approach (g : Grid) (actor : Actor) (deltaTime cellSize : ℚ)
    (t : Int)
    (ht : t = ⌊(actor.centroid.x - actor.speed * deltaTime - MAZE_ORIGIN_X) / cellSize⌋)
    (ho : actor.orientation = .left ∨ actor.orientation = .right ∨ actor.orientation = .none)
    (htarget : cellAt g actor.currentTileY t = some 1)
    (hbeyond : cellAt g actor.currentTileY (t - 1) = some 0) :
    (actor.centroid.x ≤ MAZE_ORIGIN_X + (t : ℚ) * cellSize + cellSize / 2 →
        IsTraversable actor .left deltaTime cellSize g = some false)
    ∧ (MAZE_ORIGIN_X + (t : ℚ) * cellSize + cellSize / 2 < actor.centroid.x →
        IsTraversable actor .left deltaTime cellSize g = some true) := by
  obtain ⟨_, _, hc0, hc1⟩ := cellAt_inBounds g _ _ _ htarget
  have hb : t > -1 ∧ t < NUM_TILES_HORIZONTAL := ⟨by omega, hc1⟩
  subst ht
  constructor
  · intro hx
    simp only [IsTraversable, if_pos hb, htarget, hbeyond, if_pos ho, Option.some_bind, if_true]
    simp [hx]
  · intro hx
    simp only [IsTraversable, if_pos hb, htarget, hbeyond, if_pos ho, Option.some_bind, if_true]
    simp [hx]

/-- C10: turn scenario.  On every grid whose cells (23,13) and (22,13) are
floor cells, a player exactly at the centre of tile (23,13), heading left,
whose displacement `speed * deltaTime` is between 0 and half a cell, gets
`IsTraversable(player, up) = true`; the player update with `up` polled then
runs `MoveActor(player, up)`, after which the orientation is `up`. -/
theorem turn_up_at_start (g : Grid) (player : Actor) (deltaTime cellSize : ℚ)
    (hcs : 0 < cellSize)
    (hfloor1 : cellAt g 23 13 = some 1) (hfloor2 : cellAt g 22 13 = some 1)
    (hcentroid : player.centroid = CalculatePositionBasedOnTile 23 13 cellSize)
    (htx : player.currentTileX = 13) (_hty : player.currentTileY = 23)
    (ho : player.orientation = .left)
    (hd0 : 0 ≤ player.speed * deltaTime) (hd1 : player.speed * deltaTime ≤ cellSize / 2) :
    IsTraversable player .up deltaTime cellSize g = some true
    ∧ (MoveActor player .up deltaTime cellSize).orientation = .up
    ∧ playerUpdate g .up deltaTime cellSize player
        = some (MoveActor player .up deltaTime cellSize) := by
  have hfloor : (⌊(player.centroid.y - player.speed * deltaTime - MAZE_ORIGIN_Y) / cellSize⌋ : Int)
      = 23 := by
    rw [hcentroid, Int.floor_eq_iff]
    simp only [CalculatePositionBasedOnTile, MAZE_ORIGIN_Y]
    constructor
    · rw [le_div_iff₀ hcs]
      push_cast
      linarith
    · rw [div_lt_iff₀ hcs]
      push_cast
      linarith
  have ht : IsTraversable player .up deltaTime cellSize g = some true := by
    have hno : ¬ (player.orientation = .up ∨ player.orientation = .down
        ∨ player.orientation = .none) := by
      rw [ho]
      decide
    have hx : player.centroid.x
        - (MAZE_ORIGIN_X + ((13 : Int) : ℚ) * cellSize + cellSize / 2) < 1 := by
      rw [hcentroid]
      simp [CalculatePositionBasedOnTile]
    have hfloor3 : cellAt g (23 - 1) 13 = some 1 := hfloor2
    simp only [IsTraversable, hfloor, htx, hfloor1, hfloor3, if_neg hno, if_pos hx,
      Option.some_bind]
    simp [NUM_TILES_VERTICAL]
  refine ⟨ht, MoveActor_orientation _ _ _ _, ?_⟩
  unfold playerUpdate
  rw [ht]
  rfl

/-- Witness for C9: on row 1 of the maze, tile (1,1) is a floor cell and
tile (1,0) a wall cell; at the centre of tile (1,1) (x = 74) a move left is
refused, and right of the centre (x = 80) it is allowed. -/
theorem IsTraversable_left_wall_approach_witness :
    IsTraversable (wallApproachActor 74) .left (1 / 60) 16 grid = some false
    ∧ IsTraversable (wallApproachActor 80) .left (1 / 60) 16 grid = some true :=
  ⟨(IsTraversable_left_wall_approach grid (wallApproachActor 74) (1 / 60) 16 1
      (by norm_num [wallApproachActor, MAZE_ORIGIN_X, Int.floor_eq_iff])
      (Or.inl rfl) (by decide) (by decide)).1
      (by norm_num [wallApproachActor, MAZE_ORIGIN_X]),
    (IsTraversable_left_wall_approach grid (wallApproachActor 80) (1 / 60) 16 1
      (by norm_num [wallApproachActor, MAZE_ORIGIN_X, Int.floor_eq_iff])
      (Or.inl rfl) (by decide) (by decide)).2
      (by norm_num [wallApproachActor, MAZE_ORIGIN_X])⟩

/-- Witness for C10: the player of the initial state on the grid that is
floor everywhere, with a frame time of one sixtieth of a second. -/
theorem turn_up_at_start_witness :
    IsTraversable (initialPlayer 0 0) .up (1 / 60) cellSize openGrid = some true
    ∧ (MoveActor (initialPlayer 0 0) .up (1 / 60) cellSize).orientation = .up
    ∧ playerUpdate openGrid .up (1 / 60) cellSize (initialPlayer 0 0)
        = some (MoveActor (initialPlayer 0 0) .up (1 / 60) cellSize) :=
  turn_up_at_start openGrid (initialPlayer 0 0) (1 / 60) cellSize
    (by norm_num [cellSize, PIXELS_PER_TILE, MAZE_SCALE]) (by decide) (by decide) rfl rfl rfl rfl
    (by norm_num [initialPlayer]) (by norm_num [initialPlayer, cellSize, PIXELS_PER_TILE, MAZE_SCALE])

/-! ### The rules of the traversability oracle -/

/-- In the colinear branch the oracle refuses the move exactly when the cell
beyond the target tile is a wall cell and the centroid has reached the centre
of the target tile. -/
theorem IsTraversable_colinear (g : Grid) (actor : Actor) (direction : Orientation)
    (deltaTime cellSize : ℚ) (v : Int)
    (hco : IsColinear actor.orientation direction)
    (htarget : cellAt g (targetTile actor direction deltaTime cellSize).1
      (targetTile actor direction deltaTime cellSize).2 = some 1)
    (hbeyond : cellAt g (tileToward (targetTile actor direction deltaTime cellSize) direction).1
      (tileToward (targetTile actor direction deltaTime cellSize) direction).2 = some v) :
    (v = 0 ∧ centroidReachedCentre actor direction deltaTime cellSize →
        IsTraversable actor direction deltaTime cellSize g = some false)
    ∧ (¬ (v = 0 ∧ centroidReachedCentre actor direction deltaTime cellSize) →
        IsTraversable actor direction deltaTime cellSize g = some true) := by
  obtain ⟨hr0, hr1, hc0, hc1⟩ := cellAt_inBounds g _ _ _ htarget
  cases direction
  case none => exact absurd hco (by simp [IsColinear])
  all_goals
    simp only [targetTile, tileToward, IsColinear, centroidReachedCentre] at *
    constructor
    · intro h
      simp only [IsTraversable, htarget, hbeyond, if_pos hco, Option.some_bind, if_true]
      rw [if_pos (by constructor <;> omega)]
      simp [h]
    · intro h
      simp only [IsTraversable, htarget, hbeyond, if_pos hco, Option.some_bind, if_true]
      rw [if_pos (by constructor <;> omega)]
      simp [h]


/-- When the oracle allows a move it has looked up the target tile and found
a floor cell there. -/
theorem IsTraversable_true_target (g : Grid) (actor : Actor) (direction : Orientation)
    (deltaTime cellSize : ℚ)
    (h : IsTraversable actor direction deltaTime cellSize g = some true) :
    cellAt g (targetTile actor direction deltaTime cellSize).1
      (targetTile actor direction deltaTime cellSize).2 = some 1 := by
  cases direction
  case none => exact absurd h (by simp [IsTraversable])
  all_goals
    simp only [IsTraversable] at h
    simp only [targetTile]
    split at h
    · obtain ⟨t, ht, h2⟩ := Option.bind_eq_some.mp h
      by_cases h1 : t = 1
      · rw [← h1]
        exact ht
      · rw [if_neg h1] at h2
        exact absurd h2 (by simp)
    · exact absurd h (by simp)

/-- C14: for every grid, actor (cached tile row and column in bounds),
direction and frame time, if `IsTraversable` answers `true` then the target
tile (along the axis of travel the tile index of the hypothetical position, on
the other axis the actor's cached tile index) is a floor cell of the grid. -/
theorem IsTraversable_true_floor (g : Grid) (actor : Actor) (direction : Orientation)
    (deltaTime cellSize : ℚ)
    (_hrow : 0 ≤ actor.currentTileY ∧ actor.currentTileY < NUM_TILES_VERTICAL)
    (_hcol : 0 ≤ actor.currentTileX ∧ actor.currentTileX < NUM_TILES_HORIZONTAL)
    (h : IsTraversable actor direction deltaTime cellSize g = some true) :
    cellAt g (targetTile actor direction deltaTime cellSize).1
      (targetTile actor direction deltaTime cellSize).2 = some 1 :=
  IsTraversable_true_target g actor direction deltaTime cellSize h

/-- C11, amended: the colinear rule, for each of the four directions.  For
an actor whose heading is on the axis of the requested direction or is `none`,
with the target tile a floor cell of the grid and the cell one step further in
that direction existing with value `v`, `IsTraversable` answers `false` if and
only if that further cell is a wall cell (`v = 0`) and the actor's centroid,
where it is now, has reached or passed the centre of the target tile in the
direction of travel; otherwise it answers `true`. -/
theorem colinear_rule (g : Grid) (actor : Actor) (direction : Orientation)
    (deltaTime cellSize : ℚ) (v : Int)
    (hco : IsColinear actor.orientation direction)
    (htarget : cellAt g (targetTile actor direction deltaTime cellSize).1
      (targetTile actor direction deltaTime cellSize).2 = some 1)
    (hbeyond : cellAt g (tileToward (targetTile actor direction deltaTime cellSize) direction).1
      (tileToward (targetTile actor direction deltaTime cellSize) direction).2 = some v) :
    (IsTraversable actor direction deltaTime cellSize g = some false
        ↔ v = 0 ∧ centroidReachedCentre actor direction deltaTime cellSize)
    ∧ (¬ (v = 0 ∧ centroidReachedCentre actor direction deltaTime cellSize) →
        IsTraversable actor direction deltaTime cellSize g = some true) := by
  obtain ⟨h1, h2⟩ := IsTraversable_colinear g actor direction deltaTime cellSize v hco htarget
    hbeyond
  refine ⟨⟨fun h => ?_, h1⟩, h2⟩
  by_contra hn
  rw [h2 hn] at h
  exact absurd h (by simp)

/-- C11, counterexample: on row 1 of the maze an actor at x = 75, heading
left, is asked to move left for one sixtieth of a second.  The target tile
(1,1) is a floor cell, the cell (1,0) beyond it is a wall cell, and the
hypothetical position 75 - 100/60 is left of the centre x = 74 of the target
tile; yet `IsTraversable` answers `true`, because the centroid itself is still
right of the centre. -/
theorem colinear_rule_counterexample :
    IsColinear (wallApproachActor 75).orientation .left
    ∧ targetTile (wallApproachActor 75) .left (1 / 60) 16 = (1, 1)
    ∧ cellAt grid 1 1 = some 1
    ∧ tileToward (1, 1) .left = (1, 0)
    ∧ cellAt grid 1 0 = some 0
    ∧ hypotheticalReachedCentre (wallApproachActor 75) .left (1 / 60) 16
    ∧ IsTraversable (wallApproachActor 75) .left (1 / 60) 16 grid = some true := by
  have ht : targetTile (wallApproachActor 75) .left (1 / 60) 16 = (1, 1) := by
    norm_num [targetTile, wallApproachActor, MAZE_ORIGIN_X, Int.floor_eq_iff]
  have hco : IsColinear (wallApproachActor 75).orientation .left := Or.inl rfl
  refine ⟨hco, ht, by decide, rfl, by decide, ?_, ?_⟩
  · simp only [hypotheticalReachedCentre, ht]
    norm_num [wallApproachActor, MAZE_ORIGIN_X]
  · apply (IsTraversable_colinear grid (wallApproachActor 75) .left (1 / 60) 16 0 hco ?_ ?_).2
    · simp only [centroidReachedCentre, ht]
      norm_num [wallApproachActor, MAZE_ORIGIN_X]
    · rw [ht]; decide
    · rw [ht]; decide

/-- Witness for C11 (amended): on row 1 of the maze an actor at the centre
of tile (1,1), heading left, with the wall cell (1,0) beyond. -/
theorem colinear_rule_witness :
    (IsTraversable (wallApproachActor 74) .left (1 / 60) 16 grid = some false
        ↔ (0 : Int) = 0 ∧ centroidReachedCentre (wallApproachActor 74) .left (1 / 60) 16)
    ∧ (¬ ((0 : Int) = 0 ∧ centroidReachedCentre (wallApproachActor 74) .left (1 / 60) 16) →
        IsTraversable (wallApproachActor 74) .left (1 / 60) 16 grid = some true) :=
  have ht : targetTile (wallApproachActor 74) .left (1 / 60) 16 = (1, 1) := by
    norm_num [targetTile, wallApproachActor, MAZE_ORIGIN_X, Int.floor_eq_iff]
  colinear_rule grid (wallApproachActor 74) .left (1 / 60) 16 0 (Or.inl rfl)
    (by rw [ht]; decide) (by rw [ht]; decide)

/-- In the initial state the player may move left. -/
theorem initialPlayer_left_traversable :
    IsTraversable (initialPlayer 0 0) .left (1 / 60) cellSize grid = some true := by
  have ht : targetTile (initialPlayer 0 0) .left (1 / 60) cellSize = (23, 13) := by
    norm_num [targetTile, initialPlayer, CalculatePositionBasedOnTile, MAZE_ORIGIN_X,
      STARTING_COLUMN, STARTING_ROW, cellSize, PIXELS_PER_TILE, MAZE_SCALE, Int.floor_eq_iff]
  apply (IsTraversable_colinear grid (initialPlayer 0 0) .left (1 / 60) cellSize 1
    (Or.inl rfl) ?_ ?_).2
  · intro h
    exact absurd h.1 (by decide)
  · rw [ht]; decide
  · rw [ht]; decide

/-- Witness for C14: the player of the initial state moving left; the target
tile is (23,13). -/
theorem IsTraversable_true_floor_witness :
    cellAt grid (targetTile (initialPlayer 0 0) .left (1 / 60) cellSize).1
      (targetTile (initialPlayer 0 0) .left (1 / 60) cellSize).2 = some 1 :=
  IsTraversable_true_floor grid (initialPlayer 0 0) .left (1 / 60) cellSize
    (by decide) (by decide) initialPlayer_left_traversable

/-! ### Turns -/

/-- C12, evaluated at a failing input: an actor in tile (5,6) of the maze,
heading down, whose cached tile agrees with its centroid, is 5 units above the
centre of row 5 and is asked to turn left.  The alignment test of the turn
branch is the one-sided `theoreticalPositionY - centre < 1`, which -5
satisfies, and `IsTraversable` answers `true` although the absolute difference
on the orthogonal axis is 5. -/
theorem turn_allowed_off_centre :
    turnActor.currentTileX = ⌊(turnActor.centroid.x - MAZE_ORIGIN_X) / cellSize⌋
    ∧ turnActor.currentTileY = ⌊(turnActor.centroid.y - MAZE_ORIGIN_Y) / cellSize⌋
    ∧ turnActor.orientation = .down
    ∧ IsTraversable turnActor .left (1 / 60) cellSize grid = some true
    ∧ |turnActor.centroid.y - (MAZE_ORIGIN_Y
        + ((targetTile turnActor .left (1 / 60) cellSize).1 : ℚ) * cellSize + cellSize / 2)| = 5 := by
  have hfloor : (⌊(turnActor.centroid.x - turnActor.speed * (1 / 60) - MAZE_ORIGIN_X)
      / cellSize⌋ : Int) = 6 := by
    norm_num [turnActor, MAZE_ORIGIN_X, cellSize, PIXELS_PER_TILE, MAZE_SCALE, Int.floor_eq_iff]
  refine ⟨?_, ?_, rfl, ?_, ?_⟩
  · norm_num [turnActor, MAZE_ORIGIN_X, cellSize, PIXELS_PER_TILE, MAZE_SCALE, Int.floor_eq_iff]
  · norm_num [turnActor, MAZE_ORIGIN_Y, cellSize, PIXELS_PER_TILE, MAZE_SCALE, Int.floor_eq_iff]
  · have c1 : cellAt grid turnActor.currentTileY 6 = some 1 := by decide
    have c2 : cellAt grid turnActor.currentTileY (6 - 1) = some 1 := by decide
    have ho : ¬ (turnActor.orientation = .left ∨ turnActor.orientation = .right
        ∨ turnActor.orientation = .none) := by decide
    have hy : turnActor.centroid.y
        - (MAZE_ORIGIN_Y + (turnActor.currentTileY : ℚ) * cellSize + cellSize / 2) < 1 := by
      norm_num [turnActor, MAZE_ORIGIN_Y, cellSize, PIXELS_PER_TILE, MAZE_SCALE]
    simp only [IsTraversable, hfloor, c1, c2, if_neg ho, if_pos hy, Option.some_bind]
    simp [NUM_TILES_HORIZONTAL]
  · norm_num [targetTile, turnActor, MAZE_ORIGIN_Y, cellSize, PIXELS_PER_TILE, MAZE_SCALE]

/-- C13, evaluated at a failing input: an actor at the centre of tile (14,1)
of the maze, heading down, is asked to turn left.  The target tile (14,1) is a
floor cell, the actor's y equals the centre of row 14 exactly, and the tile one
step past the target, (14,0), is inside the grid and a floor cell; yet
`IsTraversable` answers `false`, because the guard of the left turn is
`targetTileX - 1 > 0`. -/
theorem turn_refused_before_column_zero :
    tunnelTurnActor.orientation = .down
    ∧ targetTile tunnelTurnActor .left (1 / 60) cellSize = (14, 1)
    ∧ cellAt grid 14 1 = some 1
    ∧ tunnelTurnActor.centroid.y = MAZE_ORIGIN_Y + ((14 : Int) : ℚ) * cellSize + cellSize / 2
    ∧ tileToward (14, 1) .left = (14, 0)
    ∧ cellAt grid 14 0 = some 1
    ∧ IsTraversable tunnelTurnActor .left (1 / 60) cellSize grid = some false := by
  have hfloor : (⌊(tunnelTurnActor.centroid.x - tunnelTurnActor.speed * (1 / 60) - MAZE_ORIGIN_X)
      / cellSize⌋ : Int) = 1 := by
    norm_num [tunnelTurnActor, CalculatePositionBasedOnTile, MAZE_ORIGIN_X, cellSize,
      PIXELS_PER_TILE, MAZE_SCALE, Int.floor_eq_iff]
  refine ⟨rfl, ?_, by decide, ?_, rfl, by decide, ?_⟩
  · simp only [targetTile, hfloor]
    rfl
  · norm_num [tunnelTurnActor, CalculatePositionBasedOnTile, MAZE_ORIGIN_Y]
  · have c1 : cellAt grid tunnelTurnActor.currentTileY 1 = some 1 := by decide
    have ho : ¬ (tunnelTurnActor.orientation = .left ∨ tunnelTurnActor.orientation = .right
        ∨ tunnelTurnActor.orientation = .none) := by decide
    have hy : tunnelTurnActor.centroid.y
        - (MAZE_ORIGIN_Y + (tunnelTurnActor.currentTileY : ℚ) * cellSize + cellSize / 2) < 1 := by
      norm_num [tunnelTurnActor, CalculatePositionBasedOnTile, MAZE_ORIGIN_Y]
    simp only [IsTraversable, hfloor, c1, if_neg ho, if_pos hy, Option.some_bind]
    simp

/-! ### The ghost commit and the player update -/

/-- `MoveActor` displaces the centroid by `speed * deltaTime` in the
direction moved in. -/
theorem MoveActor_centroid (actor : Actor) (orientation : Orientation) (deltaTime cs : ℚ) :
    (MoveActor actor orientation deltaTime cs).centroid
      = displaced actor.centroid orientation (actor.speed * deltaTime) := by
  cases orientation <;> simp [MoveActor, SetCurrentTileForActor, displaced]

/-- C15: the ghost commit.  For every ghost whose centroid is within 1 unit
of `pendingPosition` on both axes and for which
`IsTraversable(ghost, pendingDirection)` is true, the commit/move step of the
frame moves the ghost by `speed * deltaTime` in `pendingDirection`, sets the
orientation to that direction, sets `pendingDirection` to `none`, sets
`nextTile` to the old `nextNextTile` and `pendingPosition` to the tile centre of
the new `nextTile`, and leaves `nextNextTile` and `targetTile` unchanged.  The
whole ghost part of the frame does the same after refreshing `targetTile` from
the player: the decision step does not run, as `pendingDirection` is not
`none`. -/
theorem ghostMove_commit (g : Grid) (deltaTime cs : ℚ) (player : Actor) (b : Ghost)
    (hreach : |b.pendingPosition.x - b.centroid.x| < 1
      ∧ |b.pendingPosition.y - b.centroid.y| < 1)
    (htrav : IsTraversable b.toActor b.pendingDirection deltaTime cs g = some true) :
    ∃ b2, ghostMove g deltaTime cs b = some b2
      ∧ b.pendingDirection ≠ .none
      ∧ b2.toActor = MoveActor b.toActor b.pendingDirection deltaTime cs
      ∧ b2.centroid = displaced b.centroid b.pendingDirection (b.speed * deltaTime)
      ∧ b2.orientation = b.pendingDirection
      ∧ b2.pendingDirection = .none
      ∧ b2.nextTileX = b.nextNextTileX ∧ b2.nextTileY = b.nextNextTileY
      ∧ b2.pendingPosition = CalculatePositionBasedOnTile b2.nextTileY b2.nextTileX cs
      ∧ b2.nextNextTileX = b.nextNextTileX ∧ b2.nextNextTileY = b.nextNextTileY
      ∧ b2.targetTileX = b.targetTileX ∧ b2.targetTileY = b.targetTileY
      ∧ ghostStep g deltaTime cs player b
          = some { b2 with
              targetTileX := player.currentTileX
              targetTileY := player.currentTileY } := by
  have hne : b.pendingDirection ≠ .none := by
    intro h
    rw [h] at htrav
    exact absurd htrav (by simp [IsTraversable])
  refine ⟨{ MoveGhost b b.pendingDirection deltaTime cs with
      pendingDirection := .none
      nextTileX := b.nextNextTileX
      nextTileY := b.nextNextTileY
      pendingPosition := CalculatePositionBasedOnTile b.nextNextTileY b.nextNextTileX cs },
    ?_, hne, rfl, MoveActor_centroid _ _ _ _, MoveActor_orientation _ _ _ _, rfl, rfl,
    rfl, rfl, rfl, rfl, rfl, rfl, ?_⟩
  · unfold ghostMove
    rw [if_pos hreach, htrav]
    rfl
  · unfold ghostStep ghostDecision
    rw [if_neg hne]
    simp only [Option.some_bind]
    unfold ghostMove
    rw [if_pos hreach]
    have htrav2 : IsTraversable b.toActor b.pendingDirection deltaTime cs g = some true := htrav
    simp only [htrav2, Option.some_bind, if_true]
    rfl

/-- C17: player control resolution.  If `IsTraversable(player, inp)` is
true the player is moved by `MoveActor` in the polled direction and its
orientation becomes that direction; else, if
`IsTraversable(player, player.orientation)` is true, the player is moved along
its current orientation, which is unchanged; else the orientation becomes
`none` and the centroid and cached tile are unchanged. -/
theorem playerUpdate_resolution (g : Grid) (inp : Orientation) (deltaTime cs : ℚ)
    (player : Actor) :
    (IsTraversable player inp deltaTime cs g = some true →
        playerUpdate g inp deltaTime cs player = some (MoveActor player inp deltaTime cs)
        ∧ (MoveActor player inp deltaTime cs).orientation = inp)
    ∧ (IsTraversable player inp deltaTime cs g = some false →
        IsTraversable player player.orientation deltaTime cs g = some true →
        playerUpdate g inp deltaTime cs player
          = some (MoveActor player player.orientation deltaTime cs)
        ∧ (MoveActor player player.orientation deltaTime cs).orientation = player.orientation)
    ∧ (IsTraversable player inp deltaTime cs g = some false →
        IsTraversable player player.orientation deltaTime cs g = some false →
        ∃ p2, playerUpdate g inp deltaTime cs player = some p2
          ∧ p2.orientation = .none
          ∧ p2.centroid = player.centroid
          ∧ p2.currentTileX = player.currentTileX
          ∧ p2.currentTileY = player.currentTileY) := by
  refine ⟨fun h => ⟨?_, MoveActor_orientation _ _ _ _⟩,
    fun h1 h2 => ⟨?_, MoveActor_orientation _ _ _ _⟩, fun h1 h2 => ⟨{ player with orientation := .none }, ?_, rfl, rfl, rfl, rfl⟩⟩
  · unfold playerUpdate
    rw [h]
    rfl
  · unfold playerUpdate
    rw [h1, h2]
    rfl
  · unfold playerUpdate
    rw [h1, h2]
    rfl

/-- The ghost `commitGhost` may turn up. -/
theorem commitGhost_up_traversable :
    IsTraversable commitGhost.toActor .up (1 / 60) cellSize grid = some true := by
  have hfloor : (⌊(commitGhost.centroid.y - commitGhost.speed * (1 / 60) - MAZE_ORIGIN_Y)
      / cellSize⌋ : Int) = 11 := by
    norm_num [commitGhost, CalculatePositionBasedOnTile, MAZE_ORIGIN_Y, cellSize,
      PIXELS_PER_TILE, MAZE_SCALE, Int.floor_eq_iff]
  have c1 : cellAt grid 11 commitGhost.currentTileX = some 1 := by decide
  have c2 : cellAt grid (11 - 1) commitGhost.currentTileX = some 1 := by decide
  have ho : ¬ (commitGhost.orientation = .up ∨ commitGhost.orientation = .down
      ∨ commitGhost.orientation = .none) := by decide
  have hx : commitGhost.centroid.x
      - (MAZE_ORIGIN_X + (commitGhost.currentTileX : ℚ) * cellSize + cellSize / 2) < 1 := by
    norm_num [commitGhost, CalculatePositionBasedOnTile, MAZE_ORIGIN_X]
  simp only [IsTraversable, hfloor, c1, c2, if_neg ho, if_pos hx, Option.some_bind]
  simp [NUM_TILES_VERTICAL]

/-- Witness for C15: the ghost `commitGhost` with a frame time of one
sixtieth of a second. -/
theorem ghostMove_commit_witness :
    ∃ b2, ghostMove grid (1 / 60) cellSize commitGhost = some b2
      ∧ b2.centroid = displaced commitGhost.centroid .up (100 * (1 / 60))
      ∧ b2.orientation = .up
      ∧ b2.pendingDirection = .none
      ∧ b2.nextTileX = 12 ∧ b2.nextTileY = 10 :=
  have h := ghostMove_commit grid (1 / 60) cellSize (initialPlayer 0 0) commitGhost
    (by norm_num [commitGhost]) commitGhost_up_traversable
  h.elim fun b2 hb => ⟨b2, hb.1, hb.2.2.2.1, hb.2.2.2.2.1, hb.2.2.2.2.2.1, hb.2.2.2.2.2.2.1,
    hb.2.2.2.2.2.2.2.1⟩

/-- At the centre of tile (1,1) of the maze an actor heading left may not
move left: the cell beyond is a wall cell. -/
theorem wallApproachActor_left_refused :
    IsTraversable (wallApproachActor 74) .left (1 / 60) 16 grid = some false := by
  have ht : targetTile (wallApproachActor 74) .left (1 / 60) 16 = (1, 1) := by
    norm_num [targetTile, wallApproachActor, MAZE_ORIGIN_X, Int.floor_eq_iff]
  apply (IsTraversable_colinear grid (wallApproachActor 74) .left (1 / 60) 16 0
    (Or.inl rfl) ?_ ?_).1
  · refine ⟨rfl, ?_⟩
    simp only [centroidReachedCentre, ht]
    norm_num [wallApproachActor, MAZE_ORIGIN_X]
  · rw [ht]; decide
  · rw [ht]; decide

/-- In the initial state the player may not turn up: tile (22,13) is a wall
cell. -/
theorem initialPlayer_up_refused :
    IsTraversable (initialPlayer 0 0) .up (1 / 60) cellSize grid = some false := by
  have hfloor : (⌊((initialPlayer 0 0).centroid.y - (initialPlayer 0 0).speed * (1 / 60)
      - MAZE_ORIGIN_Y) / cellSize⌋ : Int) = 23 := by
    norm_num [initialPlayer, CalculatePositionBasedOnTile, MAZE_ORIGIN_Y, STARTING_ROW,
      cellSize, PIXELS_PER_TILE, MAZE_SCALE, Int.floor_eq_iff]
  have c1 : cellAt grid 23 (initialPlayer 0 0).currentTileX = some 1 := by decide
  have c2 : cellAt grid (23 - 1) (initialPlayer 0 0).currentTileX = some 0 := by decide
  have ho : ¬ ((initialPlayer 0 0).orientation = .up ∨ (initialPlayer 0 0).orientation = .down
      ∨ (initialPlayer 0 0).orientation = .none) := by decide
  have hx : (initialPlayer 0 0).centroid.x
      - (MAZE_ORIGIN_X + ((initialPlayer 0 0).currentTileX : ℚ) * cellSize + cellSize / 2) < 1 := by
    norm_num [initialPlayer, CalculatePositionBasedOnTile, MAZE_ORIGIN_X, STARTING_COLUMN]
  simp only [IsTraversable, hfloor, c1, c2, if_neg ho, if_pos hx, Option.some_bind]
  simp [NUM_TILES_VERTICAL]

/-- Witness for C17: in the initial state the player moves left when left
is polled, and keeps moving left when up is polled (tile (22,13) is a wall
cell); an actor stopped by the wall left of tile (1,1) gets orientation
`none`. -/
theorem playerUpdate_resolution_witness :
    playerUpdate grid .left (1 / 60) cellSize (initialPlayer 0 0)
        = some (MoveActor (initialPlayer 0 0) .left (1 / 60) cellSize)
    ∧ playerUpdate grid .up (1 / 60) cellSize (initialPlayer 0 0)
        = some (MoveActor (initialPlayer 0 0) .left (1 / 60) cellSize)
    ∧ ∃ p2, playerUpdate grid .left (1 / 60) 16 (wallApproachActor 74) = some p2
        ∧ p2.orientation = .none ∧ p2.centroid = (wallApproachActor 74).centroid :=
  ⟨((playerUpdate_resolution grid .left (1 / 60) cellSize (initialPlayer 0 0)).1
      initialPlayer_left_traversable).1,
    ((playerUpdate_resolution grid .up (1 / 60) cellSize (initialPlayer 0 0)).2.1
      initialPlayer_up_refused initialPlayer_left_traversable).1,
    ((playerUpdate_resolution grid .left (1 / 60) 16 (wallApproachActor 74)).2.2
      wallApproachActor_left_refused wallApproachActor_left_refused).elim
      fun p2 hp => ⟨p2, hp.1, hp.2.1, hp.2.2.1⟩⟩

/-! ### Heading changes, dead ends and the tunnel -/

/-- One pass of the decision loop changes no field of the ghost other than
`pendingDirection` and `nextNextTile`. -/
theorem decisionPass_fields (g : Grid) (s s2 : ℚ × Ghost) (d : Orientation)
    (h : decisionPass g s d = some s2) :
    s2.2.toActor = s.2.toActor ∧ s2.2.pendingPosition = s.2.pendingPosition
    ∧ s2.2.nextTileX = s.2.nextTileX ∧ s2.2.nextTileY = s.2.nextTileY
    ∧ s2.2.targetTileX = s.2.targetTileX ∧ s2.2.targetTileY = s.2.targetTileY := by
  rcases decisionPass_some g s.1 s.2 d s2 h with h1 | ⟨_, _, h1⟩
  · rw [h1]
    exact ⟨rfl, rfl, rfl, rfl, rfl, rfl⟩
  · rw [h1]
    exact ⟨rfl, rfl, rfl, rfl, rfl, rfl⟩

/-- The decision loop, over any list of directions, changes no field of the
ghost other than `pendingDirection` and `nextNextTile`. -/
theorem decisionLoop_fields (g : Grid) (ds : List Orientation) :
    ∀ s s2 : ℚ × Ghost, decisionLoop g s ds = some s2 →
      s2.2.toActor = s.2.toActor ∧ s2.2.pendingPosition = s.2.pendingPosition
      ∧ s2.2.nextTileX = s.2.nextTileX ∧ s2.2.nextTileY = s.2.nextTileY
      ∧ s2.2.targetTileX = s.2.targetTileX ∧ s2.2.targetTileY = s.2.targetTileY := by
  induction ds with
  | nil =>
    intro s s2 h
    have : s = s2 := Option.some.inj h
    subst this
    exact ⟨rfl, rfl, rfl, rfl, rfl, rfl⟩
  | cons d rest ih =>
    intro s s2 h
    obtain ⟨s1, h1, h2⟩ := Option.bind_eq_some.mp h
    obtain ⟨a1, a2, a3, a4, a5, a6⟩ := decisionPass_fields g s s1 d h1
    obtain ⟨b1, b2, b3, b4, b5, b6⟩ := ih s1 s2 h2
    exact ⟨b1.trans a1, b2.trans a2, b3.trans a3, b4.trans a4, b5.trans a5, b6.trans a6⟩

/-- The decision step changes no field of the ghost other than
`pendingDirection` and `nextNextTile`. -/
theorem ghostDecision_fields (g : Grid) (b b2 : Ghost) (h : ghostDecision g b = some b2) :
    b2.toActor = b.toActor ∧ b2.pendingPosition = b.pendingPosition
    ∧ b2.nextTileX = b.nextTileX ∧ b2.nextTileY = b.nextTileY
    ∧ b2.targetTileX = b.targetTileX ∧ b2.targetTileY = b.targetTileY := by
  unfold ghostDecision at h
  by_cases hp : b.pendingDirection = .none
  · rw [if_pos hp] at h
    obtain ⟨s2, h1, h2⟩ := Option.map_eq_some'.mp h
    rw [← h2]
    exact decisionLoop_fields g directions (FLT_MAX, b) s2 h1
  · rw [if_neg hp] at h
    have : b = b2 := Option.some.inj h
    subst this
    exact ⟨rfl, rfl, rfl, rfl, rfl, rfl⟩

/-- The statement run when the ghost does not commit: the ghost moves along
its current heading when that is traversable and holds otherwise. -/
theorem ghostContinue_eq (g : Grid) (deltaTime cs : ℚ) (b : Ghost) (ok : Bool)
    (h : IsTraversable b.toActor b.orientation deltaTime cs g = some ok) :
    ghostContinue g deltaTime cs b
      = some (if ok then MoveGhost b b.orientation deltaTime cs else b) := by
  unfold ghostContinue
  rw [h]
  cases ok <;> rfl

/-- With no pending direction there is nothing to commit. -/
theorem ghostMove_pending_none (g : Grid) (deltaTime cs : ℚ) (b : Ghost)
    (hp : b.pendingDirection = .none) :
    ghostMove g deltaTime cs b = ghostContinue g deltaTime cs b := by
  unfold ghostMove
  split_ifs
  · rw [hp]
    rfl
  · rfl

/-- C19: the ghost changes heading only at tile centres.  If the ghost part
of a frame leaves the ghost with an orientation other than the one it started
with, then at the start the centroid was within 1 unit of `pendingPosition` on
both axes.  When `pendingPosition` has not been reached, the commit/move step
is the no-commit statement: the ghost moves along its current heading by
`speed * deltaTime` if that is traversable and holds otherwise, and its
orientation, `pendingDirection`, `nextTile` and `pendingPosition` are
unchanged. -/
theorem ghost_turns_only_at_centre (g : Grid) (deltaTime cs : ℚ) :
    (∀ (player : Actor) (b b2 : Ghost), ghostStep g deltaTime cs player b = some b2 →
        b2.orientation ≠ b.orientation → reachedPending b)
    ∧ (∀ b : Ghost, ¬ reachedPending b →
        ghostMove g deltaTime cs b = ghostContinue g deltaTime cs b)
    ∧ (∀ (b : Ghost) (ok : Bool), ¬ reachedPending b →
        IsTraversable b.toActor b.orientation deltaTime cs g = some ok →
        ∃ b2, ghostMove g deltaTime cs b = some b2
          ∧ (ok = true → b2.toActor = MoveActor b.toActor b.orientation deltaTime cs
              ∧ b2.centroid = displaced b.centroid b.orientation (b.speed * deltaTime))
          ∧ (ok = false → b2.toActor = b.toActor)
          ∧ b2.orientation = b.orientation
          ∧ b2.pendingDirection = b.pendingDirection
          ∧ b2.nextTileX = b.nextTileX ∧ b2.nextTileY = b.nextTileY
          ∧ b2.pendingPosition = b.pendingPosition) := by
  have hcont : ∀ b : Ghost, ¬ reachedPending b →
      ghostMove g deltaTime cs b = ghostContinue g deltaTime cs b := by
    intro b hnot
    unfold ghostMove
    exact if_neg hnot
  refine ⟨?_, hcont, ?_⟩
  · intro player b b2 h hne
    by_contra hnot
    unfold ghostStep at h
    obtain ⟨decided, h1, h2⟩ := Option.bind_eq_some.mp h
    obtain ⟨ha, hpp, _⟩ := ghostDecision_fields g _ decided h1
    have hnot2 : ¬ reachedPending decided := by
      intro hr
      apply hnot
      unfold reachedPending at hr ⊢
      have hc : decided.centroid = b.centroid := by
        show decided.toActor.centroid = b.toActor.centroid
        rw [ha]
      rw [hpp, hc] at hr
      exact hr
    rw [hcont decided hnot2] at h2
    have ho := (ghostContinue_keeps g deltaTime cs decided b2 h2).1
    have ho2 : decided.orientation = b.orientation := by
      show decided.toActor.orientation = b.toActor.orientation
      rw [ha]
    exact hne (ho.trans ho2)
  · intro b ok hnot htrav
    refine ⟨if ok then MoveGhost b b.orientation deltaTime cs else b, ?_, ?_, ?_, ?_, ?_, ?_, ?_,
      ?_⟩
    · rw [hcont b hnot]
      exact ghostContinue_eq g deltaTime cs b ok htrav
    · intro h
      subst h
      exact ⟨rfl, MoveActor_centroid _ _ _ _⟩
    · intro h
      subst h
      rfl
    all_goals cases ok
    all_goals rfl

/-- The ghost part of a frame at `commitGhost`: the ghost turns up. -/
theorem commitGhost_step :
    ∃ b2, ghostStep grid (1 / 60) cellSize (initialPlayer 0 0) commitGhost = some b2
      ∧ b2.orientation = .up := by
  have hne : ¬ commitGhost.pendingDirection = .none := by decide
  have hreach : |commitGhost.pendingPosition.x - commitGhost.centroid.x| < 1
      ∧ |commitGhost.pendingPosition.y - commitGhost.centroid.y| < 1 := by
    norm_num [commitGhost]
  refine ⟨{ MoveGhost { commitGhost with
        targetTileX := (initialPlayer 0 0).currentTileX
        targetTileY := (initialPlayer 0 0).currentTileY } .up (1 / 60) cellSize with
      pendingDirection := .none
      nextTileX := commitGhost.nextNextTileX
      nextTileY := commitGhost.nextNextTileY
      pendingPosition := CalculatePositionBasedOnTile commitGhost.nextNextTileY
        commitGhost.nextNextTileX cellSize }, ?_, ?_⟩
  · unfold ghostStep ghostDecision
    rw [if_neg hne]
    simp only [Option.some_bind]
    unfold ghostMove
    rw [if_pos hreach]
    have htrav : IsTraversable commitGhost.toActor commitGhost.pendingDirection (1 / 60)
        cellSize grid = some true := commitGhost_up_traversable
    simp only [htrav, Option.some_bind, if_true]
    rfl
  · exact MoveActor_orientation _ _ _ _

/-- In the initial state the ghost may move left. -/
theorem initialBlinky_left_traversable :
    IsTraversable (initialBlinky 0 0 0 0 13 23).toActor .left (1 / 60) cellSize grid
      = some true := by
  have ht : targetTile (initialBlinky 0 0 0 0 13 23).toActor .left (1 / 60) cellSize
      = (11, 13) := by
    norm_num [targetTile, initialBlinky, CalculatePositionBasedOnTile, MAZE_ORIGIN_X,
      cellSize, PIXELS_PER_TILE, MAZE_SCALE, Int.floor_eq_iff]
  apply (IsTraversable_colinear grid (initialBlinky 0 0 0 0 13 23).toActor .left (1 / 60)
    cellSize 1 (Or.inl rfl) ?_ ?_).2
  · intro h
    exact absurd h.1 (by decide)
  · rw [ht]; decide
  · rw [ht]; decide

/-- Witness for C19: the ghost `commitGhost` turns up, and it has reached
its `pendingPosition`; the ghost of the initial state has not reached its
`pendingPosition`, and keeps its heading while moving left. -/
theorem ghost_turns_only_at_centre_witness :
    reachedPending commitGhost
    ∧ ∃ b2, ghostMove grid (1 / 60) cellSize (initialBlinky 0 0 0 0 13 23) = some b2
        ∧ b2.orientation = .left ∧ b2.pendingDirection = .none :=
  have hnot : ¬ reachedPending (initialBlinky 0 0 0 0 13 23) := by
    norm_num [reachedPending, initialBlinky, CalculatePositionBasedOnTile, MAZE_ORIGIN_X,
      cellSize, PIXELS_PER_TILE, MAZE_SCALE]
  ⟨commitGhost_step.elim fun b2 hb =>
      (ghost_turns_only_at_centre grid (1 / 60) cellSize).1 (initialPlayer 0 0) commitGhost b2
        hb.1 (by rw [hb.2]; decide),
    ((ghost_turns_only_at_centre grid (1 / 60) cellSize).2.2 (initialBlinky 0 0 0 0 13 23) true
      hnot initialBlinky_left_traversable).elim
      fun b2 hb => ⟨b2, hb.1, hb.2.2.2.1, hb.2.2.2.2.1⟩⟩

/-! ### Dead ends inside a grid -/

/-- When every direction is the reversal of the heading or leads to a cell
of the grid that is not a floor cell, the decision loop changes nothing. -/
theorem decisionLoop_dead_end (g : Grid) (s : ℚ × Ghost) (ds : List Orientation)
    (hdead : ∀ d ∈ ds, IsReversal s.2.orientation d = true
      ∨ ∃ v, cellAt g (neighbourTile s.2 d).1 (neighbourTile s.2 d).2 = some v ∧ v ≠ 1) :
    decisionLoop g s ds = some s := by
  induction ds with
  | nil => rfl
  | cons d rest ih =>
    have hd : decisionPass g s d = some s := by
      rcases hdead d (List.mem_cons_self d rest) with hrev | ⟨v, hv, hne⟩
      · exact decisionPass_reversal g s d hrev
      · exact decisionPass_blocked g s d v hv hne
    unfold decisionLoop
    rw [hd]
    exact ih (fun e he => hdead e (List.mem_cons_of_mem d he))

/-- The ghost part of a frame at a dead end: the decision step changes
nothing, so `pendingDirection` stays `none`, nothing is committed, and the
ghost runs the no-commit statement. -/
theorem ghostStep_dead_end (g : Grid) (deltaTime cs : ℚ) (player : Actor) (b : Ghost)
    (hp : b.pendingDirection = .none)
    (hdead : ∀ d ∈ directions, IsReversal b.orientation d = true
      ∨ ∃ v, cellAt g (neighbourTile b d).1 (neighbourTile b d).2 = some v ∧ v ≠ 1) :
    ghostStep g deltaTime cs player b
      = ghostContinue g deltaTime cs { b with
          targetTileX := player.currentTileX
          targetTileY := player.currentTileY } := by
  have hdec : ghostDecision g { b with
      targetTileX := player.currentTileX
      targetTileY := player.currentTileY }
      = some { b with
          targetTileX := player.currentTileX
          targetTileY := player.currentTileY } := by
    unfold ghostDecision
    rw [if_pos hp, decisionLoop_dead_end g _ directions hdead]
    rfl
  unfold ghostStep
  rw [hdec]
  exact ghostMove_pending_none g deltaTime cs _ hp

/-! ### The tunnel ends and the exits of the maze -/

/-- The decision step at the left end of the tunnel row, heading left, looks
up the cell left of column 0, which is outside the array. -/
theorem ghostDecision_tunnel_end (b : Ghost) (hnx : b.nextTileX = 0) (hny : b.nextTileY = 14)
    (ho : b.orientation = .left) (hp : b.pendingDirection = .none) :
    ghostDecision grid b = Option.none := by
  have p1 : decisionPass grid (FLT_MAX, b) .up = some (FLT_MAX, b) := by
    apply decisionPass_blocked grid (FLT_MAX, b) .up 0 _ (by decide)
    simp only [neighbourTile, hnx, hny]
    decide
  have p2 : decisionPass grid (FLT_MAX, b) .left = Option.none := by
    rw [decisionPass_def grid FLT_MAX b .left (by decide)]
    have hrev : ¬ IsReversal b.orientation .left = true := by
      rw [ho]
      decide
    have hv : cellAt grid (neighbourTile b .left).1 (neighbourTile b .left).2 = Option.none := by
      simp only [neighbourTile, hnx, hny]
      decide
    rw [if_neg hrev, hv]
    rfl
  simp [ghostDecision, hp, decisionLoop, directions, p1, p2]

/-- C18, evaluated at a failing input: with `nextTile` the in-bounds floor
tile (14,0) of the maze and heading left, the decision step tries the direction
`left`, which is not the reversal of the heading, and looks up the neighbour
cell at row 14, column -1, which is outside the array: no bounds check precedes
the lookup. -/
theorem ghostDecision_reads_outside_grid :
    tunnelGhost.nextTileY = 14 ∧ tunnelGhost.nextTileX = 0
    ∧ cellAt grid tunnelGhost.nextTileY tunnelGhost.nextTileX = some 1
    ∧ tunnelGhost.orientation = .left ∧ tunnelGhost.pendingDirection = .none
    ∧ IsReversal tunnelGhost.orientation .left = false
    ∧ neighbourTile tunnelGhost .left = (14, -1)
    ∧ cellAt grid 14 (-1) = Option.none
    ∧ ghostDecision grid tunnelGhost = Option.none :=
  ⟨rfl, rfl, by decide, rfl, rfl, by decide, rfl, by decide,
    ghostDecision_tunnel_end tunnelGhost rfl rfl rfl rfl⟩

set_option maxRecDepth 100000 in
/-- The check `exitCheck` succeeds on every tile of the maze, for each of
the four headings. -/
theorem exitCheck_all (h : Orientation) (hh : h ≠ .none) :
    ∀ r < 31, ∀ c < 28, exitCheck r c h = true := by
  cases h
  case none => exact absurd rfl hh
  all_goals decide

/-- The neighbour tile of the decision step is the tile one step from
`nextTile`. -/
theorem neighbourTile_eq (b : Ghost) (d : Orientation) :
    neighbourTile b d = tileToward (b.nextTileY, b.nextTileX) d := by
  cases d <;> rfl

/-- A tile is a floor cell when its lookup gives 1. -/
theorem floorAt_iff (g : Grid) (tile : Int × Int) :
    floorAt g tile = true ↔ cellAt g tile.1 tile.2 = some 1 := by
  simp [floorAt]

/-- Every floor tile of the maze that can be entered with a heading, the two
ends of the tunnel row apart, has its four neighbours inside the grid and an
exit other than the reversal of the heading. -/
theorem maze_exits (row column : Int) (h : Orientation) (hh : h ≠ .none)
    (hfloor : cellAt grid row column = some 1)
    (hbehind : cellAt grid (tileBehind (row, column) h).1 (tileBehind (row, column) h).2 = some 1)
    (hend : isTunnelEnd (row, column) h = false) :
    (1 ≤ row ∧ row + 1 < NUM_TILES_VERTICAL ∧ 1 ≤ column ∧ column + 1 < NUM_TILES_HORIZONTAL)
    ∧ ∃ d, d ≠ .none ∧ IsReversal h d = false
        ∧ cellAt grid (tileToward (row, column) d).1 (tileToward (row, column) d).2 = some 1 := by
  obtain ⟨hr0, hr1, hc0, hc1⟩ := cellAt_inBounds grid row column 1 hfloor
  simp only [NUM_TILES_VERTICAL, NUM_TILES_HORIZONTAL] at hr1 hc1 ⊢
  have hr : ((row.toNat : Nat) : Int) = row := Int.toNat_of_nonneg hr0
  have hc : ((column.toNat : Nat) : Int) = column := Int.toNat_of_nonneg hc0
  have hcheck := exitCheck_all h hh row.toNat (by omega) column.toNat (by omega)
  unfold exitCheck at hcheck
  rw [hr, hc] at hcheck
  have hcond : (floorAt grid (row, column) && floorAt grid (tileBehind (row, column) h)
      && !isTunnelEnd (row, column) h) = true := by
    rw [(floorAt_iff grid (row, column)).mpr hfloor,
      (floorAt_iff grid (tileBehind (row, column) h)).mpr hbehind, hend]
    rfl
  rw [if_pos hcond] at hcheck
  obtain ⟨hb, hany⟩ := Bool.and_eq_true_iff.mp hcheck
  have hb2 := of_decide_eq_true hb
  obtain ⟨d, hd, hdq⟩ := List.any_eq_true.mp hany
  obtain ⟨hrev, hfl⟩ := Bool.and_eq_true_iff.mp hdq
  refine ⟨by omega, d, ?_, by simpa using hrev, (floorAt_iff grid _).mp hfl⟩
  intro hnone
  subst hnone
  exact absurd hd (by decide)

/-- The decision step, run at a `nextTile` whose four neighbours are inside
the grid, returns, and if some direction qualifies it ends with a qualifying
`pendingDirection`. -/
theorem ghostDecision_picks (g : Grid) (b : Ghost) (hp : b.pendingDirection = .none)
    (hrow : 1 ≤ b.nextTileY ∧ b.nextTileY + 1 < NUM_TILES_VERTICAL)
    (hcol : 1 ≤ b.nextTileX ∧ b.nextTileX + 1 < NUM_TILES_HORIZONTAL)
    (htx : -2147483648 ≤ b.targetTileX ∧ b.targetTileX < 2147483648)
    (hty : -2147483648 ≤ b.targetTileY ∧ b.targetTileY < 2147483648)
    (hq : ∃ d, Qualifies g b d) :
    ∃ decided, ghostDecision g b = some decided ∧ Qualifies g b decided.pendingDirection := by
  have hcell : ∀ d, ∃ v, cellAt g (neighbourTile b d).1 (neighbourTile b d).2 = some v := by
    intro d
    apply cellAt_isSome
    · cases d <;> simp only [neighbourTile] <;> omega
    · cases d <;> simp only [neighbourTile] <;> omega
  have hbound := fun d => manhattan_lt_FLT_MAX b d hrow hcol htx hty
  have h0 : DecisionInv g b 0 (FLT_MAX, b) :=
    Or.inl ⟨rfl, fun d hd => absurd hd (Nat.not_lt_zero _)⟩
  obtain ⟨v1, hv1⟩ := hcell .up
  obtain ⟨v2, hv2⟩ := hcell .left
  obtain ⟨v3, hv3⟩ := hcell .down
  obtain ⟨v4, hv4⟩ := hcell .right
  obtain ⟨s1, e1, i1⟩ := decisionPass_inv g b 0 _ .up v1 h0 rfl (by decide) hv1 (hbound _)
  obtain ⟨s2, e2, i2⟩ := decisionPass_inv g b 1 _ .left v2 i1 rfl (by decide) hv2 (hbound _)
  obtain ⟨s3, e3, i3⟩ := decisionPass_inv g b 2 _ .down v3 i2 rfl (by decide) hv3 (hbound _)
  obtain ⟨s4, e4, i4⟩ := decisionPass_inv g b 3 _ .right v4 i3 rfl (by decide) hv4 (hbound _)
  have hloop : ghostDecision g b = some s4.2 := by
    simp [ghostDecision, hp, decisionLoop, directions, e1, e2, e3, e4]
  obtain ⟨d, hd⟩ := hq
  have hlt : directionRank d < 4 := by
    have := hd.1
    cases d <;> first | decide | exact absurd rfl this
  refine ⟨s4.2, hloop, ?_⟩
  rcases i4 with ⟨_, hnone⟩ | ⟨c, _, hqc, hs, _⟩
  · exact absurd hd (hnone d hlt)
  · rw [hs]
    exact hqc

/-- C20, amended: the maze has no dead end for the planner away from the
two ends of the tunnel row.  For every floor tile T of the maze and every
heading h among up, down, left, right by which T can be entered (the tile one
step behind T against h is a floor tile of the grid), other than T = (14,0)
with h = left and T = (14,27) with h = right, some direction other than the
reversal of h leads from T to a floor tile of the grid, and the decision step
at `nextTile = T` with heading h (target tile indices in the range of `int`)
returns with a qualifying `pendingDirection`, which is not `none`. -/
theorem maze_no_dead_end (b : Ghost) (hp : b.pendingDirection = .none)
    (hh : b.orientation ≠ .none)
    (hfloor : cellAt grid b.nextTileY b.nextTileX = some 1)
    (hbehind : cellAt grid (tileBehind (b.nextTileY, b.nextTileX) b.orientation).1
      (tileBehind (b.nextTileY, b.nextTileX) b.orientation).2 = some 1)
    (hleft : ¬ (b.nextTileY = 14 ∧ b.nextTileX = 0 ∧ b.orientation = .left))
    (hright : ¬ (b.nextTileY = 14 ∧ b.nextTileX = 27 ∧ b.orientation = .right))
    (htx : -2147483648 ≤ b.targetTileX ∧ b.targetTileX < 2147483648)
    (hty : -2147483648 ≤ b.targetTileY ∧ b.targetTileY < 2147483648) :
    (∃ d, d ≠ .none ∧ IsReversal b.orientation d = false
        ∧ cellAt grid (tileToward (b.nextTileY, b.nextTileX) d).1
            (tileToward (b.nextTileY, b.nextTileX) d).2 = some 1)
    ∧ ∃ decided, ghostDecision grid b = some decided
        ∧ decided.pendingDirection ≠ .none
        ∧ Qualifies grid b decided.pendingDirection := by
  have hend : isTunnelEnd (b.nextTileY, b.nextTileX) b.orientation = false := by
    unfold isTunnelEnd
    by_contra hcon
    simp only [Bool.not_eq_false, Bool.or_eq_true, Bool.and_eq_true, beq_iff_eq,
      Prod.mk.injEq] at hcon
    rcases hcon with ⟨⟨h1, h2⟩, h3⟩ | ⟨⟨h1, h2⟩, h3⟩
    · exact hleft ⟨h1, h2, h3⟩
    · exact hright ⟨h1, h2, h3⟩
  obtain ⟨⟨hr0, hr1, hc0, hc1⟩, d, hd, hrev, hcell⟩ :=
    maze_exits b.nextTileY b.nextTileX b.orientation hh hfloor hbehind hend
  have hq : Qualifies grid b d := ⟨hd, hrev, by rw [neighbourTile_eq]; exact hcell⟩
  obtain ⟨decided, hdec, hqd⟩ := ghostDecision_picks grid b hp ⟨hr0, hr1⟩ ⟨hc0, hc1⟩ htx hty
    ⟨d, hq⟩
  exact ⟨⟨d, hd, hrev, hcell⟩, decided, hdec, hqd.1, hqd⟩

/-- C20, counterexample: tile (14,0) of the maze is a floor tile that can be
entered heading left (tile (14,1) behind it is a floor tile), and no direction
other than the reversal of left leads from it to a floor tile of the grid: up
(13,0) and down (15,0) are wall cells and left (14,-1) is not a cell of the
grid.  The decision step there does not end with a `pendingDirection` other
than `none`. -/
theorem maze_dead_end_at_tunnel :
    cellAt grid tunnelGhost.nextTileY tunnelGhost.nextTileX = some 1
    ∧ tunnelGhost.orientation = .left
    ∧ (tunnelGhost.nextTileY, tunnelGhost.nextTileX) = (14, 0)
    ∧ tileBehind (14, 0) .left = (14, 1)
    ∧ cellAt grid 14 1 = some 1
    ∧ (∀ d, d ≠ .none → IsReversal .left d = false →
        cellAt grid (tileToward (14, 0) d).1 (tileToward (14, 0) d).2 ≠ some 1)
    ∧ ¬ ∃ decided, ghostDecision grid tunnelGhost = some decided
        ∧ decided.pendingDirection ≠ .none := by
  refine ⟨by decide, rfl, rfl, rfl, by decide, ?_, ?_⟩
  · intro d hd hrev
    cases d
    · decide
    · decide
    · decide
    · exact absurd hrev (by decide)
    · exact absurd rfl hd
  · rintro ⟨decided, hdec, _⟩
    rw [ghostDecision_tunnel_end tunnelGhost rfl rfl rfl rfl] at hdec
    exact absurd hdec (by simp)

/-- Witness for C20 (amended): tile (11,13) of the maze entered heading
left, with target tile (23,13). -/
theorem maze_no_dead_end_witness :
    ∃ decided, ghostDecision grid scenarioGhost = some decided
      ∧ decided.pendingDirection ≠ .none :=
  (maze_no_dead_end scenarioGhost rfl (by decide) (by decide) (by decide) (by decide)
    (by decide) (by decide) (by decide)).2.elim fun decided hd => ⟨decided, hd.1, hd.2.1⟩

/-! ### Actors stay on floor tiles -/

/-- After `MoveActor` the cached tile agrees with the centroid. -/
theorem MoveActor_consistent (actor : Actor) (direction : Orientation) (deltaTime cs : ℚ) :
    tileConsistent (MoveActor actor direction deltaTime cs) cs := by
  simp [tileConsistent, MoveActor, SetCurrentTileForActor]

/-- For an actor whose cached tile agrees with its centroid, the cached tile
after `MoveActor` is the target tile that `IsTraversable` computes for the same
direction and frame time. -/
theorem MoveActor_tile_eq_target (actor : Actor) (direction : Orientation) (deltaTime cs : ℚ)
    (hc : tileConsistent actor cs) :
    ((MoveActor actor direction deltaTime cs).currentTileY,
      (MoveActor actor direction deltaTime cs).currentTileX)
      = targetTile actor direction deltaTime cs := by
  obtain ⟨hx, hy⟩ := hc
  cases direction <;>
    simp [MoveActor, SetCurrentTileForActor, targetTile, hx, hy]

/-- A move that the oracle allows takes an actor whose cached tile agrees
with its centroid to a floor cell. -/
theorem MoveActor_onFloor (g : Grid) (actor : Actor) (direction : Orientation)
    (deltaTime cs : ℚ) (hc : tileConsistent actor cs)
    (h : IsTraversable actor direction deltaTime cs g = some true) :
    onFloor g (MoveActor actor direction deltaTime cs) cs := by
  refine ⟨MoveActor_consistent actor direction deltaTime cs, ?_⟩
  have ht := IsTraversable_true_target g actor direction deltaTime cs h
  have he := MoveActor_tile_eq_target actor direction deltaTime cs hc
  rw [← he] at ht
  exact ht

/-- The three outcomes of the player update. -/
theorem playerUpdate_cases (g : Grid) (inp : Orientation) (deltaTime cs : ℚ)
    (player p2 : Actor) (h : playerUpdate g inp deltaTime cs player = some p2) :
    (IsTraversable player inp deltaTime cs g = some true
        ∧ p2 = MoveActor player inp deltaTime cs)
    ∨ (IsTraversable player player.orientation deltaTime cs g = some true
        ∧ p2 = MoveActor player player.orientation deltaTime cs)
    ∨ p2 = { player with orientation := .none } := by
  unfold playerUpdate at h
  obtain ⟨ok, h1, h2⟩ := Option.bind_eq_some.mp h
  cases ok
  · simp only [Bool.false_eq_true, if_false] at h2
    obtain ⟨ok2, h3, h4⟩ := Option.bind_eq_some.mp h2
    cases ok2
    · simp only [Bool.false_eq_true, if_false] at h4
      exact Or.inr (Or.inr (Option.some.inj h4).symm)
    · simp only [if_true] at h4
      exact Or.inr (Or.inl ⟨h3, (Option.some.inj h4).symm⟩)
  · simp only [if_true] at h2
    exact Or.inl ⟨h1, (Option.some.inj h2).symm⟩

/-- The player update keeps the player on a floor cell. -/
theorem playerUpdate_onFloor (g : Grid) (inp : Orientation) (deltaTime cs : ℚ)
    (player p2 : Actor) (hinv : onFloor g player cs)
    (h : playerUpdate g inp deltaTime cs player = some p2) :
    onFloor g p2 cs := by
  rcases playerUpdate_cases g inp deltaTime cs player p2 h with ⟨ht, rfl⟩ | ⟨ht, rfl⟩ | rfl
  · exact MoveActor_onFloor g player inp deltaTime cs hinv.1 ht
  · exact MoveActor_onFloor g player player.orientation deltaTime cs hinv.1 ht
  · exact hinv

/-- In the initial state the player is on a floor cell of the maze. -/
theorem initialPlayer_onFloor (width height : Int) :
    onFloor grid (initialPlayer width height) cellSize := by
  have hcell : cellAt grid STARTING_ROW STARTING_COLUMN = some 1 := by decide
  refine ⟨⟨?_, ?_⟩, hcell⟩
  · norm_num [initialPlayer, CalculatePositionBasedOnTile, MAZE_ORIGIN_X, STARTING_COLUMN,
      cellSize, PIXELS_PER_TILE, MAZE_SCALE, Int.floor_eq_iff]
  · norm_num [initialPlayer, CalculatePositionBasedOnTile, MAZE_ORIGIN_Y, STARTING_ROW,
      cellSize, PIXELS_PER_TILE, MAZE_SCALE, Int.floor_eq_iff]

/-- In every reachable world the player is on a floor cell of the maze. -/
theorem reachable_player_onFloor (w : World) (hw : Reachable grid w) :
    onFloor grid w.player cellSize := by
  induction hw with
  | start pw ph bw bh nnx nny tx ty => exact initialPlayer_onFloor pw ph
  | @step w w2 inp deltaTime _ _ hframe ih =>
    unfold frame at hframe
    obtain ⟨player, h1, h2⟩ := Option.bind_eq_some.mp hframe
    obtain ⟨blinky, _, h4⟩ := Option.bind_eq_some.mp h2
    have h5 := Option.some.inj h4
    subst h5
    exact playerUpdate_onFloor grid inp deltaTime cellSize w.player player ih h1

/-- C21: an actor never ends up on a wall tile.  For every grid, every
positive cell size, every frame time and every actor whose cached tile agrees
with its centroid and is in bounds, if `IsTraversable(actor, d)` is true then
after `MoveActor(actor, d)` with the same frame time the cached tile is in
bounds and is a floor cell of the grid.  Hence in every world reachable from the
initial state of `main` the player's tile is a floor cell of the maze, and so is
the player's tile after the player update of every frame from such a world. -/
theorem actor_stays_on_floor :
    (∀ (g : Grid) (actor : Actor) (d : Orientation) (deltaTime cs : ℚ), 0 < cs →
        tileConsistent actor cs →
        0 ≤ actor.currentTileY ∧ actor.currentTileY < NUM_TILES_VERTICAL →
        0 ≤ actor.currentTileX ∧ actor.currentTileX < NUM_TILES_HORIZONTAL →
        IsTraversable actor d deltaTime cs g = some true →
        (0 ≤ (MoveActor actor d deltaTime cs).currentTileY
          ∧ (MoveActor actor d deltaTime cs).currentTileY < NUM_TILES_VERTICAL
          ∧ 0 ≤ (MoveActor actor d deltaTime cs).currentTileX
          ∧ (MoveActor actor d deltaTime cs).currentTileX < NUM_TILES_HORIZONTAL)
        ∧ cellAt g (MoveActor actor d deltaTime cs).currentTileY
            (MoveActor actor d deltaTime cs).currentTileX = some 1)
    ∧ (∀ w : World, Reachable grid w →
        cellAt grid w.player.currentTileY w.player.currentTileX = some 1)
    ∧ (∀ (w : World) (inp : Orientation) (deltaTime : ℚ) (p2 : Actor), Reachable grid w →
        playerUpdate grid inp deltaTime cellSize w.player = some p2 →
        cellAt grid p2.currentTileY p2.currentTileX = some 1) := by
  refine ⟨?_, ?_, ?_⟩
  · intro g actor d deltaTime cs _ hc _ _ h
    have hf := (MoveActor_onFloor g actor d deltaTime cs hc h).2
    exact ⟨cellAt_inBounds g _ _ 1 hf, hf⟩
  · intro w hw
    exact (reachable_player_onFloor w hw).2
  · intro w inp deltaTime p2 hw h
    exact (playerUpdate_onFloor grid inp deltaTime cellSize w.player p2
      (reachable_player_onFloor w hw) h).2

/-- Witness for C21: the player of the initial state moving left for one
sixtieth of a second, and the player of the world after the first frame. -/
theorem actor_stays_on_floor_witness :
    cellAt grid (MoveActor (initialPlayer 0 0) .left (1 / 60) cellSize).currentTileY
        (MoveActor (initialPlayer 0 0) .left (1 / 60) cellSize).currentTileX = some 1
    ∧ cellAt grid firstFrameWorld.player.currentTileY firstFrameWorld.player.currentTileX
        = some 1 :=
  ⟨(actor_stays_on_floor.1 grid (initialPlayer 0 0) .left (1 / 60) cellSize
      (by norm_num [cellSize, PIXELS_PER_TILE, MAZE_SCALE]) (initialPlayer_onFloor 0 0).1
      (by decide) (by decide) initialPlayer_left_traversable).2,
    actor_stays_on_floor.2.1 firstFrameWorld firstFrame_reachable⟩

/-! ### The lookahead of the ghost -/

/-- The decision loop, over any list of directions, either leaves the ghost
alone or ends with a qualifying direction committed. -/
theorem decisionLoop_result (g : Grid) (ds : List Orientation) :
    ∀ (m : ℚ) (b : Ghost) (s2 : ℚ × Ghost), decisionLoop g (m, b) ds = some s2 →
      s2.2 = b ∨ ∃ d, Qualifies g b d ∧ s2.2 = committed b d := by
  induction ds with
  | nil =>
    intro m b s2 h
    have : (m, b) = s2 := Option.some.inj h
    subst this
    exact Or.inl rfl
  | cons d rest ih =>
    intro m b s2 h
    obtain ⟨s1, h1, h2⟩ := Option.bind_eq_some.mp h
    rcases decisionPass_some g m b d s1 h1 with hs | ⟨hq, _, hs⟩
    · subst hs
      exact ih m b s2 h2
    · subst hs
      rcases ih _ _ s2 h2 with h3 | ⟨e, hqe, h3⟩
      · exact Or.inr ⟨d, hq, h3⟩
      · refine Or.inr ⟨e, hqe, ?_⟩
        rw [h3, committed_committed]

/-- The decision step either leaves the ghost alone or, when
`pendingDirection` was `none`, ends with a qualifying direction committed. -/
theorem ghostDecision_result (g : Grid) (b b2 : Ghost) (h : ghostDecision g b = some b2) :
    b2 = b ∨ ∃ d, Qualifies g b d ∧ b2 = committed b d := by
  unfold ghostDecision at h
  by_cases hp : b.pendingDirection = .none
  · rw [if_pos hp] at h
    obtain ⟨s2, h1, h2⟩ := Option.map_eq_some'.mp h
    rw [← h2]
    exact decisionLoop_result g directions FLT_MAX b s2 h1
  · rw [if_neg hp] at h
    exact Or.inl (Option.some.inj h).symm

/-- The decision step keeps the lookahead state in order. -/
theorem ghostDecision_lookahead (g : Grid) (cs : ℚ) (b b2 : Ghost)
    (hinv : lookaheadInv g cs b) (h : ghostDecision g b = some b2) :
    lookaheadInv g cs b2 := by
  rcases ghostDecision_result g b b2 h with rfl | ⟨d, hq, rfl⟩
  · exact hinv
  · obtain ⟨h1, h2, _⟩ := hinv
    exact ⟨h1, h2, fun _ => ⟨rfl, hq.2.2⟩⟩

/-- The statement run when the ghost does not commit keeps the lookahead
state in order. -/
theorem ghostContinue_lookahead (g : Grid) (deltaTime cs : ℚ) (b b2 : Ghost)
    (hinv : lookaheadInv g cs b) (h : ghostContinue g deltaTime cs b = some b2) :
    lookaheadInv g cs b2 := by
  unfold ghostContinue at h
  obtain ⟨ok, _, h2⟩ := Option.bind_eq_some.mp h
  cases ok
  · have : b = b2 := Option.some.inj (by simpa using h2)
    subst this
    exact hinv
  · have : MoveGhost b b.orientation deltaTime cs = b2 := Option.some.inj (by simpa using h2)
    subst this
    exact hinv

/-- The commit/move step keeps the lookahead state in order: a commit makes
the old `nextNextTile`, a floor cell, the new `nextTile`. -/
theorem ghostMove_lookahead (g : Grid) (deltaTime cs : ℚ) (b b2 : Ghost)
    (hinv : lookaheadInv g cs b) (h : ghostMove g deltaTime cs b = some b2) :
    lookaheadInv g cs b2 := by
  unfold ghostMove at h
  split_ifs at h with hreach
  · obtain ⟨ok, htrav, h2⟩ := Option.bind_eq_some.mp h
    cases ok
    · exact ghostContinue_lookahead g deltaTime cs b b2 hinv (by simpa using h2)
    · have hne : b.pendingDirection ≠ .none := by
        intro hn
        rw [hn] at htrav
        exact absurd htrav (by simp [IsTraversable])
      have h3 := Option.some.inj (by simpa using h2 : some _ = some b2)
      rw [← h3]
      exact ⟨(hinv.2.2 hne).2, rfl, fun hcon => absurd rfl hcon⟩
  · exact ghostContinue_lookahead g deltaTime cs b b2 hinv h

/-- The ghost part of a frame keeps the lookahead state in order. -/
theorem ghostStep_lookahead (g : Grid) (deltaTime cs : ℚ) (player : Actor) (b b2 : Ghost)
    (hinv : lookaheadInv g cs b) (h : ghostStep g deltaTime cs player b = some b2) :
    lookaheadInv g cs b2 := by
  unfold ghostStep at h
  obtain ⟨decided, h1, h2⟩ := Option.bind_eq_some.mp h
  have hinv2 : lookaheadInv g cs { b with
      targetTileX := player.currentTileX
      targetTileY := player.currentTileY } := hinv
  exact ghostMove_lookahead g deltaTime cs decided b2
    (ghostDecision_lookahead g cs _ decided hinv2 h1) h2

/-- In every reachable world the lookahead state of the ghost is in order. -/
theorem reachable_lookahead (w : World) (hw : Reachable grid w) :
    lookaheadInv grid cellSize w.blinky := by
  induction hw with
  | start pw ph bw bh nnx nny tx ty =>
    have hcell : cellAt grid 11 12 = some 1 := by decide
    exact ⟨hcell, rfl, fun hcon => absurd rfl hcon⟩
  | @step w w2 inp deltaTime _ _ hframe ih =>
    unfold frame at hframe
    obtain ⟨player, _, h2⟩ := Option.bind_eq_some.mp hframe
    obtain ⟨blinky, h3, h4⟩ := Option.bind_eq_some.mp h2
    have h5 := Option.some.inj h4
    subst h5
    exact ghostStep_lookahead grid deltaTime cellSize player w.blinky blinky ih h3

/-- C22: the lookahead invariant of the ghost.  In every world reachable
from the initial state of `main` (ghost `nextTile` (11,12), `pendingDirection`
`none`) by frames on the maze, `nextTile` is an in-bounds floor cell and
`pendingPosition` is the tile centre of `nextTile`; and whenever
`pendingDirection` is not `none`, `nextNextTile` is the neighbour of `nextTile`
one step in `pendingDirection` and is a floor cell. -/
theorem ghost_lookahead_invariant (w : World) (hw : Reachable grid w) :
    ((0 ≤ w.blinky.nextTileY ∧ w.blinky.nextTileY < NUM_TILES_VERTICAL
        ∧ 0 ≤ w.blinky.nextTileX ∧ w.blinky.nextTileX < NUM_TILES_HORIZONTAL)
      ∧ cellAt grid w.blinky.nextTileY w.blinky.nextTileX = some 1)
    ∧ w.blinky.pendingPosition
        = CalculatePositionBasedOnTile w.blinky.nextTileY w.blinky.nextTileX cellSize
    ∧ (w.blinky.pendingDirection ≠ .none →
        (w.blinky.nextNextTileY, w.blinky.nextNextTileX)
            = tileToward (w.blinky.nextTileY, w.blinky.nextTileX) w.blinky.pendingDirection
          ∧ cellAt grid w.blinky.nextNextTileY w.blinky.nextNextTileX = some 1) := by
  obtain ⟨h1, h2, h3⟩ := reachable_lookahead w hw
  refine ⟨⟨cellAt_inBounds grid _ _ 1 h1, h1⟩, h2, fun hne => ?_⟩
  obtain ⟨h4, h5⟩ := h3 hne
  rw [neighbourTile_eq] at h4
  exact ⟨h4, h5⟩

/-- Witness for C22: the world after the first frame, where the ghost has
`nextTile` (11,12), `pendingDirection` up and `nextNextTile` (10,12). -/
theorem ghost_lookahead_invariant_witness :
    firstFrameWorld.blinky.pendingDirection ≠ .none
    ∧ cellAt grid firstFrameWorld.blinky.nextTileY firstFrameWorld.blinky.nextTileX = some 1
    ∧ (firstFrameWorld.blinky.nextNextTileY, firstFrameWorld.blinky.nextNextTileX)
        = tileToward (firstFrameWorld.blinky.nextTileY, firstFrameWorld.blinky.nextTileX)
            firstFrameWorld.blinky.pendingDirection
    ∧ cellAt grid firstFrameWorld.blinky.nextNextTileY firstFrameWorld.blinky.nextNextTileX
        = some 1 :=
  have h := ghost_lookahead_invariant firstFrameWorld firstFrame_reachable
  have hne : firstFrameWorld.blinky.pendingDirection ≠ .none :=
    fun hn => Orientation.noConfusion (hn : Orientation.up = Orientation.none)
  ⟨hne, h.1.2, (h.2.2 hne).1, (h.2.2 hne).2⟩

/-! ### Dead ends of the maze -/

/-- Frames run one after the other from a reachable world, with frame times
that are not negative, end in a reachable world. -/
theorem runFrames_reachable (g : Grid) (script : List (Orientation × ℚ)) :
    ∀ w w2 : World, Reachable g w → (∀ p ∈ script, 0 ≤ p.2) →
      runFrames g cellSize script w = some w2 → Reachable g w2 := by
  induction script with
  | nil =>
    intro w w2 hw _ hrun
    have h := Option.some.inj hrun
    subst h
    exact hw
  | cons p rest ih =>
    intro w w2 hw hpos hrun
    obtain ⟨inp, deltaTime⟩ := p
    unfold runFrames at hrun
    obtain ⟨w1, h1, h2⟩ := Option.bind_eq_some.mp hrun
    exact ih w1 w2
      (Reachable.step inp deltaTime hw (hpos (inp, deltaTime) (List.mem_cons_self _ _)) h1)
      (fun q hq => hpos q (List.mem_cons_of_mem _ hq)) h2

/-- The game `tunnelApproach`, played from the initial state of `main`, ends
in the world `tunnelEndWorld`: none of its 28 frames reads outside the grid. -/
theorem tunnelApproach_run :
    (runFrames grid cellSize tunnelApproach
      { player := initialPlayer 0 0, blinky := initialBlinky 0 0 0 0 0 0 }).map
        (fun w => (w.player, w.blinky))
      = some (tunnelEndWorld.player, tunnelEndWorld.blinky) := by
  decide!

/-- The game `tunnelApproach` frame by frame: after each frame the tile of
the player, the tile of the ghost and the `nextTile` of the ghost, each as
(row, column).  The ghost climbs column 12 to row 8, goes round by row 8,
column 9 and row 5 to column 6, comes down column 6 to the tunnel row 14, where
with the player in tile (20,5) the directions left and down are equally near
and left is earlier in `directions`, and then follows the tunnel to its left
end. -/
theorem tunnelApproach_trace :
    (frameTrace grid cellSize tunnelApproach
      { player := initialPlayer 0 0, blinky := initialBlinky 0 0 0 0 0 0 }).map
        (fun w => ((w.player.currentTileY, w.player.currentTileX),
          (w.blinky.currentTileY, w.blinky.currentTileX),
          (w.blinky.nextTileY, w.blinky.nextTileX)))
      = [((23, 12), (11, 12), (11, 12)), ((23, 11), (10, 12), (10, 12)),
         ((23, 10), (9, 12), (9, 12)), ((23, 9), (8, 12), (8, 12)),
         ((23, 8), (8, 11), (8, 11)), ((23, 7), (8, 10), (8, 10)),
         ((23, 6), (8, 9), (8, 9)), ((23, 6), (7, 9), (7, 9)),
         ((23, 6), (6, 9), (6, 9)), ((23, 6), (5, 9), (5, 9)),
         ((23, 6), (5, 8), (5, 8)), ((23, 6), (5, 7), (5, 7)),
         ((23, 6), (5, 6), (5, 6)), ((23, 6), (6, 6), (6, 6)),
         ((23, 6), (7, 6), (7, 6)), ((23, 6), (8, 6), (8, 6)),
         ((23, 6), (9, 6), (9, 6)), ((23, 6), (10, 6), (10, 6)),
         ((23, 6), (11, 6), (11, 6)), ((22, 6), (12, 6), (12, 6)),
         ((21, 6), (13, 6), (13, 6)), ((20, 6), (14, 6), (14, 6)),
         ((20, 5), (14, 5), (14, 5)), ((20, 4), (14, 4), (14, 4)),
         ((20, 3), (14, 3), (14, 3)), ((20, 2), (14, 2), (14, 2)),
         ((20, 1), (14, 1), (14, 1)), ((20, 1), (14, 1), (14, 0))] := by
  decide!

/-- The frame times of the game `tunnelApproach` are not negative. -/
theorem tunnelApproach_nonneg : ∀ p ∈ tunnelApproach, (0 : ℚ) ≤ p.2 := by
  decide!

/-- The world `tunnelEndWorld` is reachable: the game `tunnelApproach` leads
to it from the initial state of `main`. -/
theorem tunnelEndWorld_reachable : Reachable grid tunnelEndWorld := by
  have hrun := tunnelApproach_run
  obtain ⟨w, hw, heq⟩ := Option.map_eq_some'.mp hrun
  have hw2 : w = tunnelEndWorld := by
    cases w
    simp only [Prod.mk.injEq] at heq
    obtain ⟨h1, h2⟩ := heq
    subst h1
    subst h2
    rfl
  rw [← hw2]
  exact runFrames_reachable grid tunnelApproach _ w (Reachable.start 0 0 0 0 0 0 0 0)
    tunnelApproach_nonneg hw

/-- The check `deadEndCheck` succeeds on every tile of the maze, for every
heading. -/
theorem deadEndCheck_all (h : Orientation) :
    ∀ r < 31, ∀ c < 28, deadEndCheck r c h = true := by
  cases h <;> decide!

/-- A floor tile of the maze from which no direction other than the
reversal of the heading leads to a floor cell of the grid is an end of the
tunnel row, entered with the heading that points out of the grid. -/
theorem maze_dead_end_tunnel_end (b : Ghost)
    (hfloor : cellAt grid b.nextTileY b.nextTileX = some 1)
    (hdead : ∀ d, d ≠ .none → IsReversal b.orientation d = false →
      cellAt grid (neighbourTile b d).1 (neighbourTile b d).2 ≠ some 1) :
    (b.nextTileY = 14 ∧ b.nextTileX = 0 ∧ b.orientation = .left)
      ∨ (b.nextTileY = 14 ∧ b.nextTileX = 27 ∧ b.orientation = .right) := by
  obtain ⟨hr0, hr1, hc0, hc1⟩ := cellAt_inBounds grid _ _ 1 hfloor
  simp only [NUM_TILES_VERTICAL, NUM_TILES_HORIZONTAL] at hr1 hc1
  have hr : ((b.nextTileY.toNat : Nat) : Int) = b.nextTileY := Int.toNat_of_nonneg hr0
  have hc : ((b.nextTileX.toNat : Nat) : Int) = b.nextTileX := Int.toNat_of_nonneg hc0
  have hcheck := deadEndCheck_all b.orientation b.nextTileY.toNat (by omega)
    b.nextTileX.toNat (by omega)
  unfold deadEndCheck at hcheck
  rw [hr, hc] at hcheck
  have hall : (directions.all fun d => IsReversal b.orientation d
      || !floorAt grid (tileToward (b.nextTileY, b.nextTileX) d)) = true := by
    rw [List.all_eq_true]
    intro d hd
    have hne : d ≠ .none := by
      intro hn
      subst hn
      exact absurd hd (by decide)
    cases hrev : IsReversal b.orientation d
    · have h1 := hdead d hne hrev
      rw [neighbourTile_eq] at h1
      have h2 : floorAt grid (tileToward (b.nextTileY, b.nextTileX) d) = false := by
        cases hf : floorAt grid (tileToward (b.nextTileY, b.nextTileX) d)
        · rfl
        · exact absurd ((floorAt_iff grid _).mp hf) h1
      rw [h2]
      rfl
    · rfl
  have hcond : (floorAt grid (b.nextTileY, b.nextTileX) && directions.all fun d =>
      IsReversal b.orientation d
        || !floorAt grid (tileToward (b.nextTileY, b.nextTileX) d)) = true := by
    rw [(floorAt_iff grid (b.nextTileY, b.nextTileX)).mpr hfloor, hall]
    rfl
  rw [if_pos hcond] at hcheck
  unfold isTunnelEnd at hcheck
  simp only [Bool.or_eq_true, Bool.and_eq_true, beq_iff_eq, Prod.mk.injEq] at hcheck
  rcases hcheck with ⟨⟨h1, h2⟩, h3⟩ | ⟨⟨h1, h2⟩, h3⟩
  · exact Or.inl ⟨h1, h2, h3⟩
  · exact Or.inr ⟨h1, h2, h3⟩

/-- The decision step at the right end of the tunnel row, heading right,
looks up the cell right of column 27, which is outside the array. -/
theorem ghostDecision_tunnel_end_right (b : Ghost) (hnx : b.nextTileX = 27)
    (hny : b.nextTileY = 14) (ho : b.orientation = .right) (hp : b.pendingDirection = .none) :
    ghostDecision grid b = Option.none := by
  have p1 : decisionPass grid (FLT_MAX, b) .up = some (FLT_MAX, b) := by
    apply decisionPass_blocked grid (FLT_MAX, b) .up 0 _ (by decide)
    simp only [neighbourTile, hnx, hny]
    decide
  have p2 : decisionPass grid (FLT_MAX, b) .left = some (FLT_MAX, b) := by
    apply decisionPass_reversal grid (FLT_MAX, b) .left
    show IsReversal b.orientation .left = true
    rw [ho]
    decide
  have p3 : decisionPass grid (FLT_MAX, b) .down = some (FLT_MAX, b) := by
    apply decisionPass_blocked grid (FLT_MAX, b) .down 0 _ (by decide)
    simp only [neighbourTile, hnx, hny]
    decide
  have p4 : decisionPass grid (FLT_MAX, b) .right = Option.none := by
    rw [decisionPass_def grid FLT_MAX b .right (by decide)]
    have hrev : ¬ IsReversal b.orientation .right = true := by
      rw [ho]
      decide
    have hv : cellAt grid (neighbourTile b .right).1 (neighbourTile b .right).2
        = Option.none := by
      simp only [neighbourTile, hnx, hny]
      decide
    rw [if_neg hrev, hv]
    rfl
  simp [ghostDecision, hp, decisionLoop, directions, p1, p2, p3, p4]

/-- The ghost part of a frame at a dead end of the maze reads outside the
grid, whatever the frame time and the player. -/
theorem ghostStep_maze_dead_end (b : Ghost) (hp : b.pendingDirection = .none)
    (hfloor : cellAt grid b.nextTileY b.nextTileX = some 1)
    (hdead : ∀ d, d ≠ .none → IsReversal b.orientation d = false →
      cellAt grid (neighbourTile b d).1 (neighbourTile b d).2 ≠ some 1)
    (deltaTime cs : ℚ) (player : Actor) :
    ghostStep grid deltaTime cs player b = Option.none := by
  have hdec : ghostDecision grid { b with
      targetTileX := player.currentTileX
      targetTileY := player.currentTileY } = Option.none := by
    rcases maze_dead_end_tunnel_end b hfloor hdead with ⟨h1, h2, h3⟩ | ⟨h1, h2, h3⟩
    · exact ghostDecision_tunnel_end _ h2 h1 h3 hp
    · exact ghostDecision_tunnel_end_right _ h2 h1 h3 hp
  unfold ghostStep
  rw [hdec]
  rfl

/-- C16, evaluated at every dead end that a game reaches: dead-end
handling.  In every world reachable from the initial state of `main` by frames
on the maze in which the ghost has `pendingDirection = none` and the decision
step can find no qualifying direction (no direction other than the reversal of
the heading leads from `nextTile` to a floor cell), `nextTile` is an end of the
tunnel row, (14,0) with heading left or (14,27) with heading right, the
neighbour of `nextTile` along the heading is outside the array, and the decision
step looks it up without a bounds check: the ghost part of the frame, and so
the frame, has no result for any key and any frame time.  No frame ends with
the ghost holding its position and `pendingDirection` still `none`. -/
theorem dead_end_has_no_result (w : World) (hw : Reachable grid w)
    (hp : w.blinky.pendingDirection = .none)
    (hdead : ∀ d, d ≠ .none → IsReversal w.blinky.orientation d = false →
      cellAt grid (neighbourTile w.blinky d).1 (neighbourTile w.blinky d).2 ≠ some 1) :
    ((w.blinky.nextTileY = 14 ∧ w.blinky.nextTileX = 0 ∧ w.blinky.orientation = .left)
      ∨ (w.blinky.nextTileY = 14 ∧ w.blinky.nextTileX = 27 ∧ w.blinky.orientation = .right))
    ∧ cellAt grid (neighbourTile w.blinky w.blinky.orientation).1
        (neighbourTile w.blinky w.blinky.orientation).2 = Option.none
    ∧ (∀ (deltaTime : ℚ) (player : Actor),
        ghostStep grid deltaTime cellSize player w.blinky = Option.none)
    ∧ ∀ (inp : Orientation) (deltaTime : ℚ),
        frame grid cellSize inp deltaTime w = Option.none := by
  have hfloor := (reachable_lookahead w hw).1
  have hend := maze_dead_end_tunnel_end w.blinky hfloor hdead
  have hstep := ghostStep_maze_dead_end w.blinky hp hfloor hdead
  refine ⟨hend, ?_, fun deltaTime player => hstep deltaTime cellSize player, ?_⟩
  · rcases hend with ⟨h1, h2, h3⟩ | ⟨h1, h2, h3⟩
    · rw [h3]
      simp only [neighbourTile, h1, h2]
      decide
    · rw [h3]
      simp only [neighbourTile, h1, h2]
      decide
  · intro inp deltaTime
    unfold frame
    cases hpl : playerUpdate grid inp deltaTime cellSize w.player with
    | none => rfl
    | some player =>
      show (ghostStep grid deltaTime cellSize player w.blinky).bind _ = Option.none
      rw [hstep deltaTime cellSize player]
      rfl

/-- Witness for C16, the failing input: the world `tunnelEndWorld`, reached
by the game `tunnelApproach`.  The ghost has `pendingDirection = none`,
`nextTile` (14,0), a floor cell, and heading left; up (13,0) and down (15,0)
are wall cells and left (14,-1) is outside the array, so no direction other
than the reversal of the heading leads to a floor cell; the ghost part of the
frame and the frame have no result. -/
theorem dead_end_has_no_result_witness :
    Reachable grid tunnelEndWorld
    ∧ tunnelEndWorld.blinky.pendingDirection = .none
    ∧ (∀ d, d ≠ .none → IsReversal tunnelEndWorld.blinky.orientation d = false →
        cellAt grid (neighbourTile tunnelEndWorld.blinky d).1
          (neighbourTile tunnelEndWorld.blinky d).2 ≠ some 1)
    ∧ (tunnelEndWorld.blinky.nextTileY, tunnelEndWorld.blinky.nextTileX) = (14, 0)
    ∧ cellAt grid 14 0 = some 1
    ∧ tunnelEndWorld.blinky.orientation = .left
    ∧ cellAt grid 13 0 = some 0 ∧ cellAt grid 15 0 = some 0
    ∧ cellAt grid 14 (-1) = Option.none
    ∧ (∀ (deltaTime : ℚ) (player : Actor),
        ghostStep grid deltaTime cellSize player tunnelEndWorld.blinky = Option.none)
    ∧ ∀ (inp : Orientation) (deltaTime : ℚ),
        frame grid cellSize inp deltaTime tunnelEndWorld = Option.none :=
  have hdead : ∀ d, d ≠ .none → IsReversal tunnelEndWorld.blinky.orientation d = false →
      cellAt grid (neighbourTile tunnelEndWorld.blinky d).1
        (neighbourTile tunnelEndWorld.blinky d).2 ≠ some 1 := by
    intro d hd hrev
    cases d
    · decide
    · decide
    · decide
    · exact absurd hrev (by decide)
    · exact absurd rfl hd
  have h := dead_end_has_no_result tunnelEndWorld tunnelEndWorld_reachable rfl hdead
  ⟨tunnelEndWorld_reachable, rfl, hdead, rfl, by decide, rfl, by decide, by decide, by decide,
    h.2.2.1, h.2.2.2⟩

end PacAI
